import Mathlib

/-!
# Heartbeats: configuration loading, secret resolution and notification services

A shallow embedding of `internal/config.go`, `internal/notifications/slack.go`,
`internal/handlers.go` (the ping help handler) and the `--config` flag of `cmd/root.go`.

Conventions of the embedding.

* Go strings are Lean strings; byte slicing `s[n:]` is only used by the source at
  positions that follow a matched ASCII separator or a matched leading substring, where
  it agrees with dropping characters.
* A Go `error` result is a value of `Err` (one constructor per message the source
  creates or forwards, carrying the formatted arguments); `nil` is `none`.
* The global `HeartbeatsServer` is passed explicitly: a function that mutates it returns
  the new value together with its error result.
* Library calls whose result depends on the outside world or on third-party code
  (`os.Getenv`, `mapstructure.Decode`, `viper`, the template renderer, the mail provider)
  are fields of `Ext`; theorems quantify over every `Ext`.
-/

namespace Heartbeats

/-! ## Strings -/

/-- The Go expression `strings.HasPrefix(s, p)`. -/
def HasPrefix (s p : String) : Bool := p.data.isPrefixOf s.data

/-- The Go expression `s[n:]`. -/
def sliceFrom (s : String) (n : Nat) : String := ⟨s.data.drop n⟩

/-- Index of the last occurrence of `c` in `l`, counted from position `i` of the whole
string; `-1` when there is none. -/
def lastIndexFrom (c : Char) : List Char → Int → Int → Int
  | [], _, last => last
  | x :: xs, i, last => lastIndexFrom c xs (i + 1) (if x = c then i else last)

/-- The Go expression `strings.LastIndex(s, string(c))` for a one-character separator. -/
def LastIndex (s : String) (c : Char) : Int := lastIndexFrom c s.data 0 (-1)

/-- The Go expression `strings.Contains(s, string(c))` for a one-character separator. -/
def Contains (s : String) (c : Char) : Bool := s.data.contains c

/-! ## Data model (`internal/config.go`, `internal/notifications/slack.go`) -/

/-- The constant `EnvPrefix`. -/
def EnvPrefix : String := "env:"

/-- The Slack provider built by `slack.New(token)` followed by `AddReceivers`. -/
structure Slack where
  token : String
  channelIDs : List String
deriving DecidableEq, Repr

/-- Modelled from the spec: the mail provider returned by `GenerateMailService`
(`notifications/mail.go` is not among the sources); it records what it was built from. -/
structure Mail where
  senderAddress : String
  smtpHostAddr : String
  smtpHostPort : Int
  smtpAuthUser : String
  smtpAuthPassword : String
  receiverAddresses : List String
deriving DecidableEq, Repr

/-- A service registered with a notifier. -/
inductive Notifier
  | slack (svc : Slack)
  | mail (svc : Mail)
deriving DecidableEq, Repr

/-- The value `*notify.Notify` points to: `notify.New()` is `⟨[]⟩`. -/
structure Notify where
  notifiers : List Notifier
deriving DecidableEq, Repr

/-- The method `UseServices` of `*notify.Notify`. -/
def Notify.UseServices (n : Notify) (svc : Notifier) : Notify := ⟨n.notifiers ++ [svc]⟩

/-- The struct `notifications.SlackSettings`; a nil `Notifier` pointer is `none`, and the
field `Type` is written `Type_`. -/
structure SlackSettings where
  Name : String := ""
  Type_ : String := ""
  Enabled : Bool := false
  Notifier : Option Notify := none
  Subject : String := ""
  Message : String := ""
  OauthToken : String := ""
  Channels : List String := []
deriving DecidableEq, Repr

/-- Modelled from the spec: the struct `notifications.MailSettings` (`notifications/mail.go`
is not among the sources); the fields are the ones `config.go` reads, next to the common
`Type` field. -/
structure MailSettings where
  Name : String := ""
  Type_ : String := ""
  Enabled : Bool := false
  Notifier : Option Notify := none
  Subject : String := ""
  Message : String := ""
  SenderAddress : String := ""
  SmtpHostAddr : String := ""
  SmtpHostPort : Int := 0
  SmtpAuthUser : String := ""
  SmtpAuthPassword : String := ""
  ReceiverAddresses : List String := []
deriving DecidableEq, Repr

/-- A dynamic value inside a parsed configuration map. -/
inductive Value
  | null
  | str (s : String)
  | bool (b : Bool)
  | int (n : Int)
  | strs (l : List String)
deriving DecidableEq, Repr

/-- A Go `map[string]interface{}`; a key is bound to the first pair that carries it. -/
abbrev RawMap := List (String × Value)

/-- An element of `Notifications.Services`, of static type `interface{}`. -/
inductive Service
  | raw (m : RawMap)
  | slack (s : SlackSettings)
  | mail (s : MailSettings)
  | other
deriving DecidableEq, Repr

/-- Modelled from the spec: the type `Timer` is declared outside the given sources; a
timer is identified by a handle. -/
structure Timer where
  handle : Nat
deriving DecidableEq, Repr

/-- The struct `Heartbeat`; durations in nanoseconds, `LastPing` as Unix nanoseconds. -/
structure Heartbeat where
  Name : String := ""
  Description : String := ""
  Interval : Int := 0
  Grace : Int := 0
  LastPing : Int := 0
  Status : String := ""
  Notifications : List String := []
  IntervalTimer : Option Timer := none
  GraceTimer : Option Timer := none
deriving DecidableEq, Repr

/-- The struct `Config`. -/
structure Config where
  Path : String := ""
  PrintVersion : Bool := false
  Debug : Bool := false
deriving DecidableEq, Repr

/-- The struct `Server`. -/
structure Server where
  Hostname : String := ""
  Port : Int := 0
deriving DecidableEq, Repr

/-- The struct `Defaults`. -/
structure Defaults where
  Subject : String := ""
  Message : String := ""
deriving DecidableEq, Repr

/-- The struct `Notifications`. -/
structure Notifications where
  Defaults : Defaults := {}
  Services : List Service := []
deriving DecidableEq, Repr

/-- The struct `HeartbeatsConfig`, the type of the global `HeartbeatsServer`. -/
structure HeartbeatsConfig where
  Config : Config := {}
  Server : Server := {}
  Heartbeats : List Heartbeat := []
  Notifications : Notifications := {}
  Version : String := ""
deriving DecidableEq, Repr

/-- The `error` values the embedded functions return, one constructor per message the
source creates or forwards. -/
inductive Err
  /-- The message `type of service %s is not set`, with the map's `name` entry. -/
  | typeNotSet (name : Option Value)
  /-- The message `invalid service type in notifications config file`. -/
  | invalidServiceType
  /-- The error `mapstructure.Decode` returned, forwarded as it is. -/
  | decode (e : String)
  /-- The message `error while generating slack service: %s`. -/
  | slackService (e : String)
  /-- The message `error while generating mail service: %s`. -/
  | mailService (e : String)
  /-- The message `Unknown notification service type`. -/
  | unknownType
  /-- The message `error while processing notification services: %s`. -/
  | processing (e : Err)
  /-- The message `default subject is not set`. -/
  | defaultSubject
  /-- The message `default message is not set`. -/
  | defaultMessage
  /-- The error `Substitute` returned for a default template, forwarded as it is. -/
  | substitute (e : String)
  /-- The message `Error in notification settings: %s`. -/
  | notificationSettings (e : String)
  /-- The error `viper.ReadInConfig` returned, forwarded as it is. -/
  | readInConfig (e : String)
  /-- The error `viper.Unmarshal` returned, forwarded as it is. -/
  | unmarshal (e : String)
deriving DecidableEq, Repr

/-! ## External collaborators -/

/-- What the embedded code calls but does not define. -/
structure Ext where
  /-- The process environment: the value of a variable, `none` when it is unset. -/
  environ : String → Option String
  /-- The call `mapstructure.Decode(service, &result)` on a zero `SlackSettings`. -/
  decodeSlack : Service → Except String SlackSettings
  /-- The call `mapstructure.Decode(service, &result)` on a zero `MailSettings`. -/
  decodeMail : Service → Except String MailSettings
  /-- The function `notifications.GenerateMailService` (`notifications/mail.go`). -/
  GenerateMailService : String → String → Int → String → String → List String →
    Except String Mail
  /-- The template renderer `Substitute(name, template, heartbeat)`. -/
  Substitute : String → String → Heartbeat → Except String String
  /-- The call `viper.ReadInConfig()` after `SetConfigFile` and `SetConfigType` with the
  given file name and type. -/
  ReadInConfig : String → String → Option String
  /-- The call `viper.Unmarshal(&HeartbeatsServer)` of what was read from the given file
  name and type, as a transformer of `HeartbeatsServer`. -/
  Unmarshal : String → String → HeartbeatsConfig → HeartbeatsConfig × Option String

/-- The call `os.Getenv(key)`: the empty string when the variable is unset. -/
def Getenv (ext : Ext) (key : String) : String := (ext.environ key).getD ""

/-! ## `notifications/slack.go` -/

/-- The function `GenerateSlackService`. -/
def GenerateSlackService (token : String) (channels : List String) : Except String Slack :=
  if token = "" then .error "Token is empty"
  else if channels.length = 0 then .error "Channels are empty"
  else
    let slackService : Slack := ⟨token, []⟩
    let c := String.intercalate "," channels
    .ok { slackService with channelIDs := slackService.channelIDs ++ [c] }

/-! ## Reflection and secret resolution (`SubstituteFieldsWithEnv`) -/

/-- The `reflect.Value` of a struct field, by kind. -/
inductive FieldValue
  | str (s : String)
  | bool (b : Bool)
  | int (n : Int)
  | strs (l : List String)
  | notify (p : Option Notify)
  | invalid
deriving DecidableEq, Repr

/-- The method `reflect.Value.String`: the string itself for a string, otherwise the
type between `<` and ` Value>`. -/
def reflectString : FieldValue → String
  | .str s => s
  | .bool _ => "<bool Value>"
  | .int _ => "<int Value>"
  | .strs _ => "<[]string Value>"
  | .notify _ => "<*notify.Notify Value>"
  | .invalid => "<invalid Value>"

/-- A struct value as reflection sees it: field names and values in declaration order. -/
abbrev Struct := List (String × FieldValue)

/-- The method `reflect.Value.FieldByName`. -/
def FieldByName (a : Struct) (name : String) : FieldValue := (a.lookup name).getD .invalid

/-- A Go `map[string]reflect.Value` whose values are strings; a key occurs once. -/
abbrev FieldMap := List (String × String)

/-- The assignment `result[name] = value`. -/
def FieldMap.set (result : FieldMap) (name value : String) : FieldMap :=
  (name, value) :: result.filter (fun p => p.1 != name)

/-- The body of the loop of `SubstituteFieldsWithEnv` for the field called `name`. -/
def substituteField (ext : Ext) (pfx : String) (a : Struct) (result : FieldMap)
    (name : String) : FieldMap :=
  let value := FieldByName a name
  if !HasPrefix (reflectString value) pfx then result
  else
    let envValue := Getenv ext (sliceFrom (reflectString value) pfx.data.length)
    if envValue ≠ "" then result.set name envValue else result

/-- The function `SubstituteFieldsWithEnv(prefix, a)`. -/
def SubstituteFieldsWithEnv (ext : Ext) (pfx : String) (a : Struct) : FieldMap :=
  (a.map Prod.fst).foldl (substituteField ext pfx a) []

/-- Reflection view of a `SlackSettings`. -/
def SlackSettings.fields (s : SlackSettings) : Struct :=
  [("Name", .str s.Name), ("Type", .str s.Type_), ("Enabled", .bool s.Enabled),
   ("Notifier", .notify s.Notifier), ("Subject", .str s.Subject),
   ("Message", .str s.Message), ("OauthToken", .str s.OauthToken),
   ("Channels", .strs s.Channels)]

/-- The statement `reflect.ValueOf(&result).Elem().FieldByName(name).Set(value)` for a
string `value`. On a field that is not a string the Go call panics; the maps
`SubstituteFieldsWithEnv` returns for `EnvPrefix` bind string fields only
(`subst_binds_string_field`), and here such a field is left as it is. -/
def SlackSettings.Set (s : SlackSettings) (name value : String) : SlackSettings :=
  if name = "Name" then { s with Name := value }
  else if name = "Type" then { s with Type_ := value }
  else if name = "Subject" then { s with Subject := value }
  else if name = "Message" then { s with Message := value }
  else if name = "OauthToken" then { s with OauthToken := value }
  else s

/-- Reflection view of a `MailSettings`. -/
def MailSettings.fields (s : MailSettings) : Struct :=
  [("Name", .str s.Name), ("Type", .str s.Type_), ("Enabled", .bool s.Enabled),
   ("Notifier", .notify s.Notifier), ("Subject", .str s.Subject),
   ("Message", .str s.Message), ("SenderAddress", .str s.SenderAddress),
   ("SmtpHostAddr", .str s.SmtpHostAddr), ("SmtpHostPort", .int s.SmtpHostPort),
   ("SmtpAuthUser", .str s.SmtpAuthUser), ("SmtpAuthPassword", .str s.SmtpAuthPassword),
   ("ReceiverAddresses", .strs s.ReceiverAddresses)]

/-- The statement `reflect.ValueOf(&result).Elem().FieldByName(name).Set(value)` for a
string `value`, as for `SlackSettings.Set`. -/
def MailSettings.Set (s : MailSettings) (name value : String) : MailSettings :=
  if name = "Name" then { s with Name := value }
  else if name = "Type" then { s with Type_ := value }
  else if name = "Subject" then { s with Subject := value }
  else if name = "Message" then { s with Message := value }
  else if name = "SenderAddress" then { s with SenderAddress := value }
  else if name = "SmtpHostAddr" then { s with SmtpHostAddr := value }
  else if name = "SmtpAuthUser" then { s with SmtpAuthUser := value }
  else if name = "SmtpAuthPassword" then { s with SmtpAuthPassword := value }
  else s

/-- The loop `for name, value := range m { ...FieldByName(name).Set(value) }` on a
`SlackSettings`; the keys of `m` are distinct and the assignments to distinct fields
commute, so the order of the iteration is immaterial. -/
def SlackSettings.setAll (s : SlackSettings) (m : FieldMap) : SlackSettings :=
  m.foldl (fun r nv => r.Set nv.1 nv.2) s

/-- The loop `for name, value := range m { ...FieldByName(name).Set(value) }` on a
`MailSettings`. -/
def MailSettings.setAll (s : MailSettings) (m : FieldMap) : MailSettings :=
  m.foldl (fun r nv => r.Set nv.1 nv.2) s

/-! ## `ProcessServiceSettings` -/

/-- The first `switch` of the loop body: the service type of an entry. -/
def serviceType (service : Service) : Except Err String :=
  match service with
  | .raw m =>
    match m.lookup "type" with
    | some (.str s) => .ok s
    | _ => .error (.typeNotSet (m.lookup "name"))
  | .slack _ => .ok "slack"
  | .mail _ => .ok "mail"
  | .other => .error .invalidServiceType

/-- The `case "slack"` branch: the value stored in `Services[i]`. -/
def processSlack (ext : Ext) (service : Service) : Except Err Service :=
  match ext.decodeSlack service with
  | .error e => .error (.decode e)
  | .ok result =>
    let result := result.setAll (SubstituteFieldsWithEnv ext EnvPrefix result.fields)
    match GenerateSlackService result.OauthToken result.Channels with
    | .error e => .error (.slackService e)
    | .ok svc =>
      .ok (.slack { result with Notifier := some ((Notify.mk []).UseServices (.slack svc)) })

/-- The `case "mail"` branch: the value stored in `Services[i]`. -/
def processMail (ext : Ext) (service : Service) : Except Err Service :=
  match ext.decodeMail service with
  | .error e => .error (.decode e)
  | .ok result =>
    let result := result.setAll (SubstituteFieldsWithEnv ext EnvPrefix result.fields)
    match ext.GenerateMailService result.SenderAddress result.SmtpHostAddr
        result.SmtpHostPort result.SmtpAuthUser result.SmtpAuthPassword
        result.ReceiverAddresses with
    | .error e => .error (.mailService e)
    | .ok svc =>
      .ok (.mail { result with Notifier := some ((Notify.mk []).UseServices (.mail svc)) })

/-- One iteration of the loop of `ProcessServiceSettings`: the error it returns, or the
value it stores in `Services[i]`. -/
def processService (ext : Ext) (service : Service) : Except Err Service :=
  match serviceType service with
  | .error e => .error e
  | .ok t =>
    if t = "slack" then processSlack ext service
    else if t = "mail" then processMail ext service
    else .error .unknownType

/-- The loop of `ProcessServiceSettings` over the entries not yet visited: the slice as
the loop leaves it and the error returned. An entry is overwritten once its iteration
succeeds; the failing entry and the ones after it are not touched. -/
def processServices (ext : Ext) : List Service → List Service × Option Err
  | [] => ([], none)
  | service :: rest =>
    match processService ext service with
    | .error e => (service :: rest, some e)
    | .ok stored =>
      let r := processServices ext rest
      (stored :: r.1, r.2)

/-- The function `ProcessServiceSettings`: the new `HeartbeatsServer` and the error. -/
def ProcessServiceSettings (ext : Ext) (hs : HeartbeatsConfig) :
    HeartbeatsConfig × Option Err :=
  let r := processServices ext hs.Notifications.Services
  ({ hs with Notifications := { hs.Notifications with Services := r.1 } }, r.2)

/-! ## `CheckSendDetails` -/

/-- The loop of `CheckSendDetails` over the services. -/
def checkServices (ext : Ext) (heartbeat : Heartbeat) : List Service → Option Err
  | [] => none
  | notification :: rest =>
    let settings : Option (String × String × String) :=
      match notification with
      | .slack s => some (s.Name, s.Subject, s.Message)
      | .mail s => some (s.Name, s.Subject, s.Message)
      | _ => none
    match settings with
    | none => some .invalidServiceType
    | some (name, subject, message) =>
      match ext.Substitute name subject heartbeat with
      | .error e => some (.notificationSettings e)
      | .ok _ =>
        match ext.Substitute name message heartbeat with
        | .error e => some (.notificationSettings e)
        | .ok _ => checkServices ext heartbeat rest

/-- The function `CheckSendDetails`. -/
def CheckSendDetails (ext : Ext) (hs : HeartbeatsConfig) : Option Err :=
  let heartbeat : Heartbeat := {}
  if hs.Notifications.Defaults.Subject = "" then some .defaultSubject
  else
    match ext.Substitute "default" hs.Notifications.Defaults.Subject heartbeat with
    | .error e => some (.substitute e)
    | .ok _ =>
      match ext.Substitute "default" hs.Notifications.Defaults.Message heartbeat with
      | .error e => some (.substitute e)
      | .ok _ =>
        if hs.Notifications.Defaults.Message = "" then some .defaultMessage
        else checkServices ext heartbeat hs.Notifications.Services

/-! ## `ReadConfigFile` -/

/-- The file name `ReadConfigFile` passes to `viper.SetConfigFile`. -/
def configFileName (configPath : String) : String :=
  if Contains configPath '/' then
    sliceFrom configPath (LastIndex configPath '/' + 1).toNat
  else configPath

/-- The file type `ReadConfigFile` passes to `viper.SetConfigType`. -/
def configFileType (configPath : String) : String :=
  let configPath := configFileName configPath
  sliceFrom configPath (LastIndex configPath '.' + 1).toNat

/-- The function `ReadConfigFile`: the new `HeartbeatsServer` and the error. -/
def ReadConfigFile (ext : Ext) (configPath : String) (hs : HeartbeatsConfig) :
    HeartbeatsConfig × Option Err :=
  let fileType := configFileType configPath
  let configPath := configFileName configPath
  match ext.ReadInConfig configPath fileType with
  | some e => (hs, some (.readInConfig e))
  | none =>
    match ext.Unmarshal configPath fileType hs with
    | (hs, some e) => (hs, some (.unmarshal e))
    | (hs, none) =>
      match ProcessServiceSettings ext hs with
      | (hs, some e) => (hs, some (.processing e))
      | (hs, none) => (hs, CheckSendDetails ext hs)

/-! ## `HandlerPingHelp` (`internal/handlers.go`) -/

/-- The Go expression `r % n` on `int`: a run-time panic (`none`) when `n` is zero,
otherwise the remainder of the truncated division. -/
def goMod (r n : Int) : Option Int := if n = 0 then none else some (r.tmod n)

/-- The Go expression `xs[n]`: a run-time panic (`none`) when `n` is out of range. -/
def goIndex {α : Type} (xs : List α) (n : Int) : Option α :=
  if 0 ≤ n then xs.get? n.toNat else none

/-- The usage text `HandlerPingHelp` writes, for the value `r` that `rand.Int()`
returned and the site root of the server; `none` when the handler panics. -/
def HandlerPingHelp (hs : HeartbeatsConfig) (siteRoot : String) (r : Int) : Option String :=
  match goMod r hs.Heartbeats.length with
  | none => none
  | some n =>
    match goIndex hs.Heartbeats n with
    | none => none
    | some heartbeat =>
      some ("you must specify the name of the wanted heartbeat in the URL.\nExample: "
        ++ siteRoot ++ "/ping/" ++ heartbeat.Name)

/-! ## A concrete instance of the collaborators

Used to evaluate the embedded functions on concrete inputs. The decoder follows
`mapstructure` with its default configuration on the maps it is applied to here: a
field takes the entry under its tag (the exact key, otherwise a key equal up to letter
case), an absent or null entry leaves the zero value, and an entry of another kind is a
decoding error; a value that already has the target struct type is copied. -/

/-- Key lookup of the decoder. -/
def lookupFold (m : RawMap) (key : String) : Option Value :=
  match m.lookup key with
  | some v => some v
  | none =>
    (m.find? (fun p => p.1.data.map Char.toLower == key.data.map Char.toLower)).map
      Prod.snd

/-- Decoding of a string field. -/
def decodeStr (m : RawMap) (key : String) : Except String String :=
  match lookupFold m key with
  | none => .ok ""
  | some .null => .ok ""
  | some (.str s) => .ok s
  | some _ => .error ("'" ++ key ++ "' expected type 'string'")

/-- Decoding of a boolean field. -/
def decodeBool (m : RawMap) (key : String) : Except String Bool :=
  match lookupFold m key with
  | none => .ok false
  | some .null => .ok false
  | some (.bool b) => .ok b
  | some _ => .error ("'" ++ key ++ "' expected type 'bool'")

/-- Decoding of an integer field. -/
def decodeInt (m : RawMap) (key : String) : Except String Int :=
  match lookupFold m key with
  | none => .ok 0
  | some .null => .ok 0
  | some (.int n) => .ok n
  | some _ => .error ("'" ++ key ++ "' expected type 'int'")

/-- Decoding of a field that is a slice of strings. -/
def decodeStrs (m : RawMap) (key : String) : Except String (List String) :=
  match lookupFold m key with
  | none => .ok []
  | some .null => .ok []
  | some (.strs l) => .ok l
  | some _ => .error ("'" ++ key ++ "' expected type '[]string'")

/-- Decoding of a service entry into a zero `SlackSettings`. -/
def modelDecodeSlack : Service → Except String SlackSettings
  | .raw m => do
    let name ← decodeStr m "name"
    let type ← decodeStr m "type"
    let enabled ← decodeBool m "enabled"
    let subject ← decodeStr m "subject"
    let message ← decodeStr m "message"
    let oauthToken ← decodeStr m "oauthToken"
    let channels ← decodeStrs m "channels"
    pure { Name := name, Type_ := type, Enabled := enabled, Subject := subject,
           Message := message, OauthToken := oauthToken, Channels := channels }
  | .slack s => .ok s
  | _ => .error "expected a map or struct"

/-- Decoding of a service entry into a zero `MailSettings`. -/
def modelDecodeMail : Service → Except String MailSettings
  | .raw m => do
    let name ← decodeStr m "name"
    let type ← decodeStr m "type"
    let enabled ← decodeBool m "enabled"
    let subject ← decodeStr m "subject"
    let message ← decodeStr m "message"
    let senderAddress ← decodeStr m "senderAddress"
    let smtpHostAddr ← decodeStr m "smtpHostAddr"
    let smtpHostPort ← decodeInt m "smtpHostPort"
    let smtpAuthUser ← decodeStr m "smtpAuthUser"
    let smtpAuthPassword ← decodeStr m "smtpAuthPassword"
    let receiverAddresses ← decodeStrs m "receiverAddresses"
    pure { Name := name, Type_ := type, Enabled := enabled, Subject := subject,
           Message := message, SenderAddress := senderAddress,
           SmtpHostAddr := smtpHostAddr, SmtpHostPort := smtpHostPort,
           SmtpAuthUser := smtpAuthUser, SmtpAuthPassword := smtpAuthPassword,
           ReceiverAddresses := receiverAddresses }
  | .mail s => .ok s
  | _ => .error "expected a map or struct"

/-- Modelled from the spec: `GenerateMailService` (`notifications/mail.go` is not among the
sources) requires the sender address, the SMTP host, port and credentials, and at least
one receiver. -/
def modelGenerateMailService (senderAddress smtpHostAddr : String) (smtpHostPort : Int)
    (smtpAuthUser smtpAuthPassword : String) (receiverAddresses : List String) :
    Except String Mail :=
  if senderAddress = "" then .error "Sender address is empty"
  else if smtpHostAddr = "" then .error "SMTP host is empty"
  else if smtpHostPort = 0 then .error "SMTP port is empty"
  else if smtpAuthUser = "" then .error "SMTP user is empty"
  else if smtpAuthPassword = "" then .error "SMTP password is empty"
  else if receiverAddresses.length = 0 then .error "Receivers are empty"
  else .ok ⟨senderAddress, smtpHostAddr, smtpHostPort, smtpAuthUser, smtpAuthPassword,
    receiverAddresses⟩

/-- One renderer, for evaluating examples: a template without actions renders to itself,
and a template with an opening action delimiter is refused. -/
def modelSubstitute (_name template : String) (_heartbeat : Heartbeat) :
    Except String String :=
  if template.data.contains '\x7b' then .error "template actions are not supported"
  else .ok template

/-- The collaborators for an environment `environ` and a working directory in which the
file `name` holds `files name`, a document with the `notifications` key only that is
unmarshalled into a `HeartbeatsServer` without services. -/
def modelExt (environ : String → Option String) (files : String → Option Notifications) :
    Ext where
  environ := environ
  decodeSlack := modelDecodeSlack
  decodeMail := modelDecodeMail
  GenerateMailService := modelGenerateMailService
  Substitute := modelSubstitute
  ReadInConfig := fun name _ =>
    match files name with
    | some _ => none
    | none => some "no such file or directory"
  Unmarshal := fun name _ hs =>
    match files name with
    | some n => ({ hs with Notifications := n }, none)
    | none => (hs, none)

/-- An environment with the variable `SLACK_TOKEN` set, `EMPTY` set to the empty string,
and nothing else. -/
def sampleEnviron (key : String) : Option String :=
  if key = "SLACK_TOKEN" then some "xoxb-1" else if key = "EMPTY" then some "" else none

/-- A well-formed Slack entry as parsed from a file. -/
def validSlackEntry : Service :=
  .raw [("name", .str "team"), ("type", .str "slack"), ("enabled", .bool true),
        ("oauthToken", .str "env:SLACK_TOKEN"), ("channels", .strs ["general"])]

/-- An entry of a type that is neither `slack` nor `mail`. -/
def invalidTypeEntry : Service :=
  .raw [("name", .str "pager"), ("type", .str "sms"), ("enabled", .bool true)]

/-- A disabled Slack entry without credentials. -/
def disabledSlackEntry : Service :=
  .raw [("name", .str "off"), ("type", .str "slack"), ("enabled", .bool false)]

/-- A Slack entry whose token names an unset environment variable. -/
def unsetTokenEntry : Service :=
  .raw [("name", .str "team"), ("type", .str "slack"), ("enabled", .bool true),
        ("oauthToken", .str "env:MISSING"), ("channels", .strs ["general"])]

/-! ## Auxiliary definitions for the statements -/

/-- The value the loop body of `SubstituteFieldsWithEnv` binds to the field `name`, if it
binds one. -/
def resolveField (ext : Ext) (pfx : String) (a : Struct) (name : String) : Option String :=
  if HasPrefix (reflectString (FieldByName a name)) pfx then
    if Getenv ext (sliceFrom (reflectString (FieldByName a name)) pfx.data.length) ≠ "" then
      some (Getenv ext (sliceFrom (reflectString (FieldByName a name)) pfx.data.length))
    else none
  else none

/-- An entry that holds settings with a notifier attached. -/
def Service.hasNotifier : Service → Bool
  | .slack s => s.Notifier.isSome
  | .mail s => s.Notifier.isSome
  | _ => false

/-- An entry that is a `SlackSettings` or a `MailSettings` value. -/
def Service.isSettings : Service → Bool
  | .slack _ => true
  | .mail _ => true
  | _ => false

/-- The `enabled` flag of an entry that holds settings. -/
def Service.enabled : Service → Option Bool
  | .slack s => some s.Enabled
  | .mail s => some s.Enabled
  | _ => none

/-- A disabled Slack entry with complete credentials. -/
def disabledCompleteEntry : Service :=
  .raw [("name", .str "quiet"), ("type", .str "slack"), ("enabled", .bool false),
        ("oauthToken", .str "xoxb-2"), ("channels", .strs ["ops"])]

/-- The working directory of the reload scenario: `config.yaml` holds the defaults and a
valid Slack entry followed by an entry of an invalid type. -/
def reloadFiles (name : String) : Option Notifications :=
  if name = "config.yaml" then
    some { Defaults := ⟨"Heartbeat", "Heartbeat is missing"⟩,
           Services := [validSlackEntry, invalidTypeEntry] }
  else none

/-- The active configuration before the reload: the defaults, no service, one heartbeat
that has been pinged. -/
def priorState : HeartbeatsConfig :=
  { Config := { Path := "./config.yaml" },
    Server := { Hostname := "127.0.0.1", Port := 8090 },
    Heartbeats := [{ Name := "db-sync", Interval := 60000000000, Grace := 30000000000,
                     LastPing := 1, Status := "OK" }],
    Notifications := { Defaults := ⟨"Heartbeat", "Heartbeat is missing"⟩, Services := [] },
    Version := "0.0.1" }

/-! ## Decoding into an active configuration

On a reload `viper.Unmarshal` decodes into the `HeartbeatsServer` left by the previous
load. The decoder writes the entry at each position of the file into the element already
at that position: an element that is a `SlackSettings` or `MailSettings` value keeps its
Go type and takes the fields the file gives, the other fields being kept. -/

/-- Decoding of a string entry into a field holding `old`. -/
def mergeStr (m : RawMap) (key old : String) : Except String String :=
  match lookupFold m key with
  | none => .ok old
  | some .null => .ok old
  | some (.str s) => .ok s
  | some _ => .error ("'" ++ key ++ "' expected type 'string'")

/-- Decoding of a boolean entry into a field holding `old`. -/
def mergeBool (m : RawMap) (key : String) (old : Bool) : Except String Bool :=
  match lookupFold m key with
  | none => .ok old
  | some .null => .ok old
  | some (.bool b) => .ok b
  | some _ => .error ("'" ++ key ++ "' expected type 'bool'")

/-- Decoding of an integer entry into a field holding `old`. -/
def mergeInt (m : RawMap) (key : String) (old : Int) : Except String Int :=
  match lookupFold m key with
  | none => .ok old
  | some .null => .ok old
  | some (.int n) => .ok n
  | some _ => .error ("'" ++ key ++ "' expected type 'int'")

/-- Decoding of a list entry into a field holding `old`, for a list of the same length. -/
def mergeStrs (m : RawMap) (key : String) (old : List String) : Except String (List String) :=
  match lookupFold m key with
  | none => .ok old
  | some .null => .ok old
  | some (.strs l) => .ok l
  | some _ => .error ("'" ++ key ++ "' expected type '[]string'")

/-- Decoding of a map entry into an existing `SlackSettings` value; the notifier, which
no key of the file names, is kept. -/
def mergeSlack (old : SlackSettings) (m : RawMap) : Except String SlackSettings := do
  let name ← mergeStr m "name" old.Name
  let type ← mergeStr m "type" old.Type_
  let enabled ← mergeBool m "enabled" old.Enabled
  let subject ← mergeStr m "subject" old.Subject
  let message ← mergeStr m "message" old.Message
  let oauthToken ← mergeStr m "oauthToken" old.OauthToken
  let channels ← mergeStrs m "channels" old.Channels
  pure { old with Name := name, Type_ := type, Enabled := enabled, Subject := subject,
                  Message := message, OauthToken := oauthToken, Channels := channels }

/-- Decoding of a map entry into an existing `MailSettings` value. -/
def mergeMail (old : MailSettings) (m : RawMap) : Except String MailSettings := do
  let name ← mergeStr m "name" old.Name
  let type ← mergeStr m "type" old.Type_
  let enabled ← mergeBool m "enabled" old.Enabled
  let subject ← mergeStr m "subject" old.Subject
  let message ← mergeStr m "message" old.Message
  let senderAddress ← mergeStr m "senderAddress" old.SenderAddress
  let smtpHostAddr ← mergeStr m "smtpHostAddr" old.SmtpHostAddr
  let smtpHostPort ← mergeInt m "smtpHostPort" old.SmtpHostPort
  let smtpAuthUser ← mergeStr m "smtpAuthUser" old.SmtpAuthUser
  let smtpAuthPassword ← mergeStr m "smtpAuthPassword" old.SmtpAuthPassword
  let receiverAddresses ← mergeStrs m "receiverAddresses" old.ReceiverAddresses
  pure { old with Name := name, Type_ := type, Enabled := enabled, Subject := subject,
                  Message := message, SenderAddress := senderAddress,
                  SmtpHostAddr := smtpHostAddr, SmtpHostPort := smtpHostPort,
                  SmtpAuthUser := smtpAuthUser, SmtpAuthPassword := smtpAuthPassword,
                  ReceiverAddresses := receiverAddresses }

/-- Decoding of the services of a file into the services already in `HeartbeatsServer`,
position by position, for a file with as many entries as the active list or more. -/
def mergeServices : List Service → List Service → Except String (List Service)
  | _, [] => .ok []
  | [], entry :: entries => .ok (entry :: entries)
  | .slack old :: active, .raw m :: entries => do
    let s ← mergeSlack old m
    let rest ← mergeServices active entries
    pure (.slack s :: rest)
  | .mail old :: active, .raw m :: entries => do
    let s ← mergeMail old m
    let rest ← mergeServices active entries
    pure (.mail s :: rest)
  | _ :: active, entry :: entries => do
    let rest ← mergeServices active entries
    pure (entry :: rest)

/-- The collaborators of `modelExt`, with `viper.Unmarshal` decoding the file into the
services that `HeartbeatsServer` already holds. -/
def reloadExt (environ : String → Option String) (files : String → Option Notifications) :
    Ext :=
  { modelExt environ files with
    Unmarshal := fun name _ hs =>
      match files name with
      | some n =>
        match mergeServices hs.Notifications.Services n.Services with
        | .ok services =>
          ({ hs with Notifications := { Defaults := n.Defaults, Services := services } },
            none)
        | .error e => (hs, some e)
      | none => (hs, none) }

/-- The entry of `validSlackEntry` after its `type` has been edited to `sms`. -/
def retypedEntry : Service :=
  .raw [("name", .str "team"), ("type", .str "sms"), ("enabled", .bool true),
        ("oauthToken", .str "env:SLACK_TOKEN"), ("channels", .strs ["general"])]

/-- The working directory after the edit: `config.yaml` holds the defaults and the
entry of type `sms`. -/
def retypedFiles (name : String) : Option Notifications :=
  if name = "config.yaml" then
    some { Defaults := ⟨"Heartbeat", "Heartbeat is missing"⟩, Services := [retypedEntry] }
  else none

/-- The active configuration after a successful load of `validSlackEntry`. -/
def loadedState : HeartbeatsConfig :=
  { priorState with
    Notifications :=
      { Defaults := ⟨"Heartbeat", "Heartbeat is missing"⟩,
        Services :=
          [.slack { Name := "team", Type_ := "slack", Enabled := true,
                    Notifier := some ⟨[.slack ⟨"xoxb-1", ["general"]⟩]⟩,
                    OauthToken := "xoxb-1", Channels := ["general"] }] } }

/-! ## Strings and field maps -/

theorem HasPrefix_append (p n : String) : HasPrefix (p ++ n) p = true := by
  unfold HasPrefix
  rw [String.data_append, List.isPrefixOf_iff_prefix]
  exact List.prefix_append _ _

theorem sliceFrom_append (p n : String) : sliceFrom (p ++ n) p.data.length = n := by
  unfold sliceFrom
  rw [String.data_append, List.drop_left]

theorem lookup_filter_ne (m : FieldMap) (k k' : String) :
    (m.filter (fun p => p.1 != k)).lookup k' = if k' = k then none else m.lookup k' := by
  induction m with
  | nil => simp
  | cons p t ih =>
    obtain ⟨a, b⟩ := p
    by_cases hak : a = k
    · subst hak
      have hf : ¬ (((a, b) : String × String).1 != a) = true := by simp
      rw [List.filter_cons, if_neg hf, ih]
      by_cases hk : k' = a
      · simp [hk]
      · have hne : (k' == a) = false := by simpa using hk
        simp [hk, List.lookup_cons, hne]
    · have hf : ((a, b).1 != k) = true := by simpa using hak
      rw [List.filter_cons, if_pos hf, List.lookup_cons, ih, List.lookup_cons]
      by_cases hk : k' = k
      · subst hk
        have hne : (k' == a) = false := by
          simpa using fun h : k' = a => hak h.symm
        simp [hne]
      · simp [hk]

theorem lookup_set (m : FieldMap) (k v k' : String) :
    (m.set k v).lookup k' = if k' = k then some v else m.lookup k' := by
  unfold FieldMap.set
  rw [List.lookup_cons, lookup_filter_ne]
  by_cases hk : k' = k
  · simp [hk]
  · have hne : (k' == k) = false := by simpa using hk
    simp [hk, hne]

theorem substituteField_eq (ext : Ext) (pfx : String) (a : Struct) (result : FieldMap)
    (name : String) :
    substituteField ext pfx a result name =
      match resolveField ext pfx a name with
      | some v => result.set name v
      | none => result := by
  unfold substituteField resolveField
  simp only []
  generalize HasPrefix (reflectString (FieldByName a name)) pfx = b
  generalize Getenv ext (sliceFrom (reflectString (FieldByName a name)) pfx.data.length) = e
  cases b with
  | false => simp
  | true => by_cases h2 : e = "" <;> simp [h2]

theorem lookup_foldl_substituteField (ext : Ext) (pfx : String) (a : Struct)
    (names : List String) (result : FieldMap) (k : String) :
    (names.foldl (substituteField ext pfx a) result).lookup k =
      if k ∈ names then
        (match resolveField ext pfx a k with
         | some v => some v
         | none => result.lookup k)
      else result.lookup k := by
  induction names generalizing result with
  | nil => simp
  | cons n ns ih =>
    rw [List.foldl_cons, ih, substituteField_eq]
    by_cases hkn : k = n
    · subst hkn
      cases hr : resolveField ext pfx a k with
      | none => simp
      | some v => simp [lookup_set]
    · have hmem : (k ∈ n :: ns) ↔ k ∈ ns := by simp [hkn]
      cases hr : resolveField ext pfx a n with
      | none => simp only [hmem]
      | some v => simp only [hmem, lookup_set, if_neg hkn]

theorem lookup_SubstituteFieldsWithEnv (ext : Ext) (pfx : String) (a : Struct) (k : String) :
    (SubstituteFieldsWithEnv ext pfx a).lookup k =
      if k ∈ a.map Prod.fst then resolveField ext pfx a k else none := by
  unfold SubstituteFieldsWithEnv
  rw [lookup_foldl_substituteField]
  cases resolveField ext pfx a k <;> simp

/-! ## `GenerateSlackService` -/

/-- C1: `GenerateSlackService` returns an error exactly when the token is the empty string
or the channel list is empty, and returns a Slack service exactly otherwise; with an
empty token the error is the token error, whatever the channels are. -/
theorem GenerateSlackService_error_iff (token : String) (channels : List String) :
    ((∃ e, GenerateSlackService token channels = .error e) ↔
        (token = "" ∨ channels = [])) ∧
    ((∃ svc, GenerateSlackService token channels = .ok svc) ↔
        ¬ (token = "" ∨ channels = [])) ∧
    GenerateSlackService "" channels = .error "Token is empty" := by
  refine ⟨?_, ?_, by simp [GenerateSlackService]⟩
  · by_cases ht : token = ""
    · simp [GenerateSlackService, ht]
    · by_cases hc : channels = []
      · simp [GenerateSlackService, ht, hc]
      · simp [GenerateSlackService, ht, hc]
  · by_cases ht : token = ""
    · simp [GenerateSlackService, ht]
    · by_cases hc : channels = []
      · simp [GenerateSlackService, ht, hc]
      · simp [GenerateSlackService, ht, hc]

/-! ## `CheckSendDetails`: the defaults -/

/-- C6: when the default subject or the default message is the empty string,
`CheckSendDetails` returns an error, for every services list and every renderer. -/
theorem CheckSendDetails_empty_default (ext : Ext) (hs : HeartbeatsConfig)
    (h : hs.Notifications.Defaults.Subject = "" ∨ hs.Notifications.Defaults.Message = "") :
    ∃ e, CheckSendDetails ext hs = some e := by
  unfold CheckSendDetails
  by_cases hsub : hs.Notifications.Defaults.Subject = ""
  · exact ⟨.defaultSubject, by simp [hsub]⟩
  · have hmsg : hs.Notifications.Defaults.Message = "" := h.resolve_left hsub
    simp only [hsub, if_false]
    cases ext.Substitute "default" hs.Notifications.Defaults.Subject {} with
    | error e => exact ⟨_, rfl⟩
    | ok _ =>
      simp only []
      cases ext.Substitute "default" hs.Notifications.Defaults.Message {} with
      | error e => exact ⟨_, rfl⟩
      | ok _ => exact ⟨.defaultMessage, by simp [hmsg]⟩

/-- Witness of C6: a non-empty default subject with an empty default message, with a
renderer that accepts both. -/
theorem CheckSendDetails_empty_default_witness :
    ∃ e, CheckSendDetails (modelExt sampleEnviron (fun _ => none))
      { Notifications := { Defaults := ⟨"Heartbeat", ""⟩ } } = some e :=
  CheckSendDetails_empty_default _ _ (Or.inr rfl)

/-! ## `ReadConfigFile`: the file name -/

theorem lastIndexFrom_spec (c : Char) (l : List Char) (i last : Int) :
    (c ∉ l ∧ lastIndexFrom c l i last = last) ∨
    (c ∈ l ∧ i ≤ lastIndexFrom c l i last ∧
      c ∉ l.drop (lastIndexFrom c l i last - i + 1).toNat) := by
  induction l generalizing i last with
  | nil => exact Or.inl ⟨by simp, rfl⟩
  | cons x xs ih =>
    simp only [lastIndexFrom]
    rcases ih (i + 1) (if x = c then i else last) with ⟨hnot, hres⟩ | ⟨hmem, hle, hdrop⟩
    · rw [hres]
      by_cases hx : x = c
      · right
        rw [if_pos hx]
        refine ⟨by simp [hx], le_refl _, ?_⟩
        simpa using hnot
      · left
        rw [if_neg hx]
        exact ⟨by simp [hnot, Ne.symm hx], rfl⟩
    · right
      refine ⟨List.mem_cons_of_mem _ hmem, by omega, ?_⟩
      have hk : (lastIndexFrom c xs (i + 1) (if x = c then i else last) - i + 1).toNat =
          (lastIndexFrom c xs (i + 1) (if x = c then i else last) - (i + 1) + 1).toNat + 1 := by
        omega
      rw [hk, List.drop_succ_cons]
      exact hdrop

theorem configFileName_no_separator (configPath : String) :
    Contains (configFileName configPath) '/' = false := by
  unfold configFileName
  by_cases hc : Contains configPath '/' = true
  · rw [if_pos hc]
    have hmem : '/' ∈ configPath.data := by
      simpa [Contains] using hc
    rcases lastIndexFrom_spec '/' configPath.data 0 (-1) with ⟨hnot, _⟩ | ⟨_, _, hdrop⟩
    · exact absurd hmem hnot
    · simp only [sub_zero] at hdrop
      simpa [Contains, sliceFrom, LastIndex] using hdrop
  · rw [if_neg hc]
    simpa using hc

/-- C8, evaluated: for the path `/etc/heartbeats/config.yaml` the file name handed to the
configuration reader is `config.yaml`, without the directory, and the whole load is the
load of `config.yaml` from the working directory; for no path does the file name keep a
directory component. The default `./config.yaml` names the same file after the cut. -/
theorem ReadConfigFile_drops_directory :
    configFileName "/etc/heartbeats/config.yaml" = "config.yaml" ∧
    configFileName "./config.yaml" = "config.yaml" ∧
    (∀ (ext : Ext) (hs : HeartbeatsConfig),
      ReadConfigFile ext "/etc/heartbeats/config.yaml" hs =
        ReadConfigFile ext "config.yaml" hs) ∧
    ∀ configPath : String, Contains (configFileName configPath) '/' = false := by
  refine ⟨by decide, by decide, ?_, configFileName_no_separator⟩
  intro ext hs
  have h1 : configFileName "/etc/heartbeats/config.yaml" = configFileName "config.yaml" := by
    decide
  have h2 : configFileType "/etc/heartbeats/config.yaml" = configFileType "config.yaml" := by
    decide
  simp only [ReadConfigFile, h1, h2]

/-! ## `HandlerPingHelp` -/

/-- C10: with at least one heartbeat and a non-negative random value `r`, the index
`r % len(Heartbeats)` is a natural number below the length, the access succeeds and the
handler writes the usage text with that heartbeat; with no heartbeat the modulus is a
division by zero and the handler panics. -/
theorem HandlerPingHelp_index_in_range (hs : HeartbeatsConfig) (siteRoot : String) (r : Int)
    (hne : hs.Heartbeats ≠ []) (hr : 0 ≤ r) :
    (∃ (n : Nat) (heartbeat : Heartbeat),
      goMod r hs.Heartbeats.length = some (n : Int) ∧ n < hs.Heartbeats.length ∧
      hs.Heartbeats.get? n = some heartbeat ∧
      HandlerPingHelp hs siteRoot r =
        some ("you must specify the name of the wanted heartbeat in the URL.\nExample: "
          ++ siteRoot ++ "/ping/" ++ heartbeat.Name)) ∧
    (∀ (root : String) (k : Int),
      goMod k ({ hs with Heartbeats := [] } : HeartbeatsConfig).Heartbeats.length = none ∧
      HandlerPingHelp { hs with Heartbeats := [] } root k = none) := by
  constructor
  · have hlen : 0 < hs.Heartbeats.length := List.length_pos.mpr hne
    have hpos : (0 : Int) < (hs.Heartbeats.length : Int) := by exact_mod_cast hlen
    have h0 : 0 ≤ r.tmod hs.Heartbeats.length := Int.tmod_nonneg _ hr
    have h1 : r.tmod hs.Heartbeats.length < hs.Heartbeats.length := Int.tmod_lt_of_pos _ hpos
    obtain ⟨n, hn⟩ := Int.eq_ofNat_of_zero_le h0
    have hlt : n < hs.Heartbeats.length := by rw [hn] at h1; exact_mod_cast h1
    have hmod : goMod r hs.Heartbeats.length = some (n : Int) := by
      unfold goMod
      rw [if_neg (by omega), hn]
    have hget : hs.Heartbeats.get? n = some (hs.Heartbeats.get ⟨n, hlt⟩) :=
      List.get?_eq_get hlt
    refine ⟨n, hs.Heartbeats.get ⟨n, hlt⟩, hmod, hlt, hget, ?_⟩
    have hidx : goIndex hs.Heartbeats (n : Int) = some (hs.Heartbeats.get ⟨n, hlt⟩) := by
      unfold goIndex
      rw [if_pos (by omega), Int.toNat_ofNat, hget]
    simp only [HandlerPingHelp, hmod, hidx]
  · intro root k
    simp [HandlerPingHelp, goMod]

/-- Witness of C10: two heartbeats and the random value 7 select the second one. -/
theorem HandlerPingHelp_index_in_range_witness :
    (∃ (n : Nat) (heartbeat : Heartbeat),
      goMod 7 (([{ Name := "a" }, { Name := "b" }] : List Heartbeat).length) = some (n : Int) ∧
      n < ([{ Name := "a" }, { Name := "b" }] : List Heartbeat).length ∧
      ([{ Name := "a" }, { Name := "b" }] : List Heartbeat).get? n = some heartbeat ∧
      HandlerPingHelp { Heartbeats := [{ Name := "a" }, { Name := "b" }] } "http://x" 7 =
        some ("you must specify the name of the wanted heartbeat in the URL.\nExample: "
          ++ "http://x" ++ "/ping/" ++ heartbeat.Name)) ∧
    HandlerPingHelp { Heartbeats := [] } "http://x" 7 = none :=
  ⟨(HandlerPingHelp_index_in_range { Heartbeats := [{ Name := "a" }, { Name := "b" }] }
      "http://x" 7 (by decide) (by decide)).1, by decide⟩

/-! ## The map of `SubstituteFieldsWithEnv` and the assignment loop -/

theorem keys_nodup_set (m : FieldMap) (k v : String) (h : (m.map Prod.fst).Nodup) :
    ((m.set k v).map Prod.fst).Nodup := by
  unfold FieldMap.set
  rw [List.map_cons, List.nodup_cons]
  constructor
  · intro hmem
    obtain ⟨p, hp, hpk⟩ := List.mem_map.mp hmem
    have := (List.mem_filter.mp hp).2
    simp at this
    exact this hpk
  · exact h.sublist ((List.filter_sublist _).map _)

theorem keys_nodup_foldl (ext : Ext) (pfx : String) (a : Struct) (names : List String)
    (result : FieldMap) (h : (result.map Prod.fst).Nodup) :
    ((names.foldl (substituteField ext pfx a) result).map Prod.fst).Nodup := by
  induction names generalizing result with
  | nil => exact h
  | cons n ns ih =>
    rw [List.foldl_cons]
    apply ih
    rw [substituteField_eq]
    cases resolveField ext pfx a n with
    | none => exact h
    | some v => exact keys_nodup_set _ _ _ h

theorem keys_nodup_SubstituteFieldsWithEnv (ext : Ext) (pfx : String) (a : Struct) :
    ((SubstituteFieldsWithEnv ext pfx a).map Prod.fst).Nodup :=
  keys_nodup_foldl ext pfx a _ [] List.nodup_nil

theorem lookup_eq_none_of_not_mem (m : FieldMap) (k : String) (h : k ∉ m.map Prod.fst) :
    m.lookup k = none := by
  induction m with
  | nil => rfl
  | cons p t ih =>
    obtain ⟨a, b⟩ := p
    simp only [List.map_cons, List.mem_cons, not_or] at h
    have hne : (k == a) = false := by simpa using h.1
    rw [List.lookup_cons, hne]
    exact ih h.2

theorem slack_setAll_eq (m : FieldMap) (hnd : (m.map Prod.fst).Nodup)
    (s : SlackSettings) :
    s.setAll m =
      { s with
        Name := (m.lookup "Name").getD s.Name
        Type_ := (m.lookup "Type").getD s.Type_
        Subject := (m.lookup "Subject").getD s.Subject
        Message := (m.lookup "Message").getD s.Message
        OauthToken := (m.lookup "OauthToken").getD s.OauthToken } := by
  induction m generalizing s with
  | nil => rfl
  | cons p t ih =>
    obtain ⟨k, v⟩ := p
    rw [List.map_cons, List.nodup_cons] at hnd
    have hk := lookup_eq_none_of_not_mem t k hnd.1
    show (s.Set k v).setAll t = _
    rw [ih hnd.2]
    unfold SlackSettings.Set
    by_cases h1 : k = "Name"
    · subst h1; simp [List.lookup_cons, hk]
    by_cases h2 : k = "Type"
    · subst h2; simp [List.lookup_cons, hk]
    by_cases h3 : k = "Subject"
    · subst h3; simp [List.lookup_cons, hk]
    by_cases h4 : k = "Message"
    · subst h4; simp [List.lookup_cons, hk]
    by_cases h5 : k = "OauthToken"
    · subst h5; simp [List.lookup_cons, hk]
    have e1 : ("Name" == k) = false := by simpa using Ne.symm h1
    have e2 : ("Type" == k) = false := by simpa using Ne.symm h2
    have e3 : ("Subject" == k) = false := by simpa using Ne.symm h3
    have e4 : ("Message" == k) = false := by simpa using Ne.symm h4
    have e5 : ("OauthToken" == k) = false := by simpa using Ne.symm h5
    simp [List.lookup_cons, h1, h2, h3, h4, h5, e1, e2, e3, e4, e5]


theorem lookup_isSome_of_mem {β : Type} (m : List (String × β)) (k : String)
    (h : k ∈ m.map Prod.fst) : ∃ v, m.lookup k = some v := by
  induction m with
  | nil => simp at h
  | cons p t ih =>
    obtain ⟨a, b⟩ := p
    by_cases hka : k = a
    · exact ⟨b, by simp [List.lookup_cons, hka]⟩
    · have hne : (k == a) = false := by simpa using hka
      have ht : k ∈ t.map Prod.fst := by
        simpa [hka] using h
      obtain ⟨v, hv⟩ := ih ht
      exact ⟨v, by rw [List.lookup_cons, hne]; exact hv⟩

theorem mem_keys_of_lookup {β : Type} (m : List (String × β)) (k : String) (v : β)
    (h : m.lookup k = some v) : k ∈ m.map Prod.fst := by
  by_contra hnot
  induction m with
  | nil => simp at h
  | cons p t ih =>
    obtain ⟨a, b⟩ := p
    simp only [List.map_cons, List.mem_cons, not_or] at hnot
    have hne : (k == a) = false := by simpa using hnot.1
    rw [List.lookup_cons, hne] at h
    exact ih h hnot.2

theorem FieldByName_of_lookup (a : Struct) (name : String) (x : FieldValue)
    (h : a.lookup name = some x) : FieldByName a name = x := by
  simp [FieldByName, h]

theorem resolveField_str (ext : Ext) (a : Struct) (k v : String)
    (h : resolveField ext EnvPrefix a k = some v) :
    ∃ x, a.lookup k = some (.str x) := by
  unfold resolveField at h
  have hp : HasPrefix (reflectString (FieldByName a k)) EnvPrefix = true := by
    by_contra hnot
    rw [if_neg hnot] at h
    exact Option.noConfusion h
  unfold FieldByName at hp
  cases hl : a.lookup k with
  | none => exact absurd (hl ▸ hp) (by simp only [Option.getD_none, reflectString]; decide)
  | some x =>
    rw [hl] at hp
    cases x with
    | str y => exact ⟨y, rfl⟩
    | bool _ => exact absurd hp (by simp only [Option.getD_some, reflectString]; decide)
    | int _ => exact absurd hp (by simp only [Option.getD_some, reflectString]; decide)
    | strs _ => exact absurd hp (by simp only [Option.getD_some, reflectString]; decide)
    | notify _ => exact absurd hp (by simp only [Option.getD_some, reflectString]; decide)
    | invalid => exact absurd hp (by simp only [Option.getD_some, reflectString]; decide)

theorem slack_lookup_fields_str (s : SlackSettings) (name x : String)
    (h : s.fields.lookup name = some (.str x)) :
    name ∈ ["Name", "Type", "Subject", "Message", "OauthToken"] := by
  have hmem := mem_keys_of_lookup _ _ _ h
  simp only [SlackSettings.fields, List.map_cons, List.map_nil, List.mem_cons,
    List.mem_singleton, List.not_mem_nil, or_false] at hmem
  rcases hmem with h1 | h1 | h1 | h1 | h1 | h1 | h1 | h1 <;> subst h1 <;>
    first
    | decide
    | (exfalso; revert h; simp [SlackSettings.fields, List.lookup])

theorem mail_lookup_fields_str (s : MailSettings) (name x : String)
    (h : s.fields.lookup name = some (.str x)) :
    name ∈ ["Name", "Type", "Subject", "Message", "SenderAddress", "SmtpHostAddr",
      "SmtpAuthUser", "SmtpAuthPassword"] := by
  have hmem := mem_keys_of_lookup _ _ _ h
  simp only [MailSettings.fields, List.map_cons, List.map_nil, List.mem_cons,
    List.mem_singleton, List.not_mem_nil, or_false] at hmem
  rcases hmem with h1 | h1 | h1 | h1 | h1 | h1 | h1 | h1 | h1 | h1 | h1 | h1 <;> subst h1 <;>
    first
    | decide
    | (exfalso; revert h; simp [MailSettings.fields, List.lookup])

theorem resolveField_of_mem (ext : Ext) (pfx : String) (a : Struct) (k v : String)
    (h : (k, v) ∈ SubstituteFieldsWithEnv ext pfx a) :
    ∃ w, resolveField ext pfx a k = some w := by
  have hk : k ∈ (SubstituteFieldsWithEnv ext pfx a).map Prod.fst :=
    List.mem_map.mpr ⟨(k, v), h, rfl⟩
  obtain ⟨w, hw⟩ := lookup_isSome_of_mem _ _ hk
  rw [lookup_SubstituteFieldsWithEnv] at hw
  by_cases hmem : k ∈ a.map Prod.fst
  · rw [if_pos hmem] at hw
    exact ⟨w, hw⟩
  · rw [if_neg hmem] at hw
    exact Option.noConfusion hw

/-- With `EnvPrefix`, the map `SubstituteFieldsWithEnv` returns for a `SlackSettings`
binds string fields only, so that `Set` is never applied to a field of another type. -/
theorem subst_binds_string_field (ext : Ext) (s : SlackSettings) (k v : String)
    (h : (k, v) ∈ SubstituteFieldsWithEnv ext EnvPrefix s.fields) :
    k ∈ ["Name", "Type", "Subject", "Message", "OauthToken"] := by
  obtain ⟨w, hw⟩ := resolveField_of_mem ext _ _ k v h
  obtain ⟨x, hx⟩ := resolveField_str ext _ k w hw
  exact slack_lookup_fields_str s k x hx

/-- With `EnvPrefix`, the map `SubstituteFieldsWithEnv` returns for a `MailSettings`
binds string fields only. -/
theorem subst_binds_string_field_mail (ext : Ext) (s : MailSettings) (k v : String)
    (h : (k, v) ∈ SubstituteFieldsWithEnv ext EnvPrefix s.fields) :
    k ∈ ["Name", "Type", "Subject", "Message", "SenderAddress", "SmtpHostAddr",
      "SmtpAuthUser", "SmtpAuthPassword"] := by
  obtain ⟨w, hw⟩ := resolveField_of_mem ext _ _ k v h
  obtain ⟨x, hx⟩ := resolveField_str ext _ k w hw
  exact mail_lookup_fields_str s k x hx


theorem mail_setAll_eq (m : FieldMap) (hnd : (m.map Prod.fst).Nodup)
    (s : MailSettings) :
    s.setAll m =
      { s with
        Name := (m.lookup "Name").getD s.Name
        Type_ := (m.lookup "Type").getD s.Type_
        Subject := (m.lookup "Subject").getD s.Subject
        Message := (m.lookup "Message").getD s.Message
        SenderAddress := (m.lookup "SenderAddress").getD s.SenderAddress
        SmtpHostAddr := (m.lookup "SmtpHostAddr").getD s.SmtpHostAddr
        SmtpAuthUser := (m.lookup "SmtpAuthUser").getD s.SmtpAuthUser
        SmtpAuthPassword := (m.lookup "SmtpAuthPassword").getD s.SmtpAuthPassword } := by
  induction m generalizing s with
  | nil => rfl
  | cons p t ih =>
    obtain ⟨k, v⟩ := p
    rw [List.map_cons, List.nodup_cons] at hnd
    have hk := lookup_eq_none_of_not_mem t k hnd.1
    show (s.Set k v).setAll t = _
    rw [ih hnd.2]
    unfold MailSettings.Set
    by_cases h1 : k = "Name"
    · subst h1; simp [List.lookup_cons, hk]
    by_cases h2 : k = "Type"
    · subst h2; simp [List.lookup_cons, hk]
    by_cases h3 : k = "Subject"
    · subst h3; simp [List.lookup_cons, hk]
    by_cases h4 : k = "Message"
    · subst h4; simp [List.lookup_cons, hk]
    by_cases h5 : k = "SenderAddress"
    · subst h5; simp [List.lookup_cons, hk]
    by_cases h6 : k = "SmtpHostAddr"
    · subst h6; simp [List.lookup_cons, hk]
    by_cases h7 : k = "SmtpAuthUser"
    · subst h7; simp [List.lookup_cons, hk]
    by_cases h8 : k = "SmtpAuthPassword"
    · subst h8; simp [List.lookup_cons, hk]
    have e1 : ("Name" == k) = false := by simpa using Ne.symm h1
    have e2 : ("Type" == k) = false := by simpa using Ne.symm h2
    have e3 : ("Subject" == k) = false := by simpa using Ne.symm h3
    have e4 : ("Message" == k) = false := by simpa using Ne.symm h4
    have e5 : ("SenderAddress" == k) = false := by simpa using Ne.symm h5
    have e6 : ("SmtpHostAddr" == k) = false := by simpa using Ne.symm h6
    have e7 : ("SmtpAuthUser" == k) = false := by simpa using Ne.symm h7
    have e8 : ("SmtpAuthPassword" == k) = false := by simpa using Ne.symm h8
    simp [List.lookup_cons, h1, h2, h3, h4, h5, h6, h7, h8, e1, e2, e3, e4, e5, e6, e7, e8]

theorem resolveField_of_set (ext : Ext) (pfx : String) (a : Struct) (name N v : String)
    (hfield : a.lookup name = some (.str (pfx ++ N)))
    (hset : ext.environ N = some v) (hne : v ≠ "") :
    resolveField ext pfx a name = some v := by
  have hg : Getenv ext N = v := by simp [Getenv, hset]
  unfold resolveField
  rw [FieldByName_of_lookup a name _ hfield]
  simp only [reflectString]
  rw [HasPrefix_append, sliceFrom_append, hg, if_pos rfl, if_pos hne]

theorem resolveField_of_unset (ext : Ext) (pfx : String) (a : Struct) (name N : String)
    (hfield : a.lookup name = some (.str (pfx ++ N)))
    (hunset : Getenv ext N = "") :
    resolveField ext pfx a name = none := by
  unfold resolveField
  rw [FieldByName_of_lookup a name _ hfield]
  simp only [reflectString]
  rw [HasPrefix_append, sliceFrom_append, hunset, if_pos rfl]
  simp

/-- C4 (amended): for a string field `name` whose value is the prefix followed by `N`,
when the environment variable `N` is set to a non-empty value `v`, the map returned by
`SubstituteFieldsWithEnv` binds `name` to `v`; a field whose value does not begin with
the prefix is absent from the map; and with `EnvPrefix` the loop of
`ProcessServiceSettings` over that map leaves `v` in the field, for `SlackSettings` and
for `MailSettings`. -/
theorem SubstituteFieldsWithEnv_binds_resolved (ext : Ext) (pfx : String) (a : Struct)
    (name N v : String)
    (hfield : a.lookup name = some (.str (pfx ++ N)))
    (hset : ext.environ N = some v) (hne : v ≠ "") :
    (SubstituteFieldsWithEnv ext pfx a).lookup name = some v ∧
    (∀ other, HasPrefix (reflectString (FieldByName a other)) pfx = false →
      (SubstituteFieldsWithEnv ext pfx a).lookup other = none) ∧
    (∀ s : SlackSettings, pfx = EnvPrefix → a = s.fields →
      FieldByName (s.setAll (SubstituteFieldsWithEnv ext pfx a)).fields name = .str v) ∧
    (∀ s : MailSettings, pfx = EnvPrefix → a = s.fields →
      FieldByName (s.setAll (SubstituteFieldsWithEnv ext pfx a)).fields name = .str v) := by
  have hbind : (SubstituteFieldsWithEnv ext pfx a).lookup name = some v := by
    rw [lookup_SubstituteFieldsWithEnv, if_pos (mem_keys_of_lookup _ _ _ hfield)]
    exact resolveField_of_set ext pfx a name N v hfield hset hne
  refine ⟨hbind, ?_, ?_, ?_⟩
  · intro other hother
    rw [lookup_SubstituteFieldsWithEnv]
    have : resolveField ext pfx a other = none := by
      unfold resolveField
      rw [hother]
      simp
    rw [this]
    simp
  · intro s _ ha
    subst ha
    have hmem := slack_lookup_fields_str s name _ hfield
    rw [slack_setAll_eq _ (keys_nodup_SubstituteFieldsWithEnv _ _ _)]
    simp only [List.mem_cons, List.mem_singleton, List.not_mem_nil, or_false] at hmem
    generalize SubstituteFieldsWithEnv ext pfx s.fields = m at hbind ⊢
    rcases hmem with h | h | h | h | h <;> subst h <;>
      simp [FieldByName, SlackSettings.fields, List.lookup, hbind]
  · intro s _ ha
    subst ha
    have hmem := mail_lookup_fields_str s name _ hfield
    rw [mail_setAll_eq _ (keys_nodup_SubstituteFieldsWithEnv _ _ _)]
    simp only [List.mem_cons, List.mem_singleton, List.not_mem_nil, or_false] at hmem
    generalize SubstituteFieldsWithEnv ext pfx s.fields = m at hbind ⊢
    rcases hmem with h | h | h | h | h | h | h | h <;> subst h <;>
      simp [FieldByName, MailSettings.fields, List.lookup, hbind]

/-! ## The loop of `ProcessServiceSettings` -/

theorem processServices_append (ext : Ext) (pre pre' rest : List Service)
    (h : processServices ext pre = (pre', none)) :
    processServices ext (pre ++ rest) =
      (pre' ++ (processServices ext rest).1, (processServices ext rest).2) := by
  induction pre generalizing pre' with
  | nil =>
    simp only [processServices, Prod.mk.injEq, and_true] at h
    subst h
    rfl
  | cons s t ih =>
    simp only [processServices] at h
    cases hs : processService ext s with
    | error e => rw [hs] at h; simp at h
    | ok stored =>
      rw [hs] at h
      simp only [Prod.mk.injEq] at h
      have ht : processServices ext t = ((processServices ext t).1, none) := by
        rw [← h.2]
      have hcons : processServices ext (s :: (t ++ rest)) =
          (stored :: (processServices ext (t ++ rest)).1,
            (processServices ext (t ++ rest)).2) := by
        simp only [processServices, hs]
      rw [List.cons_append, hcons, ih _ ht, ← h.1]
      rfl

theorem processService_of_slack (ext : Ext) (service : Service)
    (h : serviceType service = .ok "slack") :
    processService ext service = processSlack ext service := by
  simp [processService, h]

theorem EnvPrefix_append_ne_empty (N : String) : EnvPrefix ++ N ≠ "" := by
  intro h
  have := congrArg String.data h
  rw [String.data_append] at this
  simp [EnvPrefix] at this

/-- C5: a Slack entry whose decoded token is `env:` followed by the name of an unset
environment variable, with at least one channel, gets no binding for `OauthToken` from
`SubstituteFieldsWithEnv`; its iteration succeeds and stores settings whose `OauthToken`
is the raw value with the marker; and `ProcessServiceSettings` succeeds on every list in
which the other entries succeed. -/
theorem unresolved_secret_kept (ext : Ext) (hs : HeartbeatsConfig) (service : Service)
    (r : SlackSettings) (N : String) (pre pre' post post' : List Service)
    (htype : serviceType service = .ok "slack")
    (hdec : ext.decodeSlack service = .ok r)
    (htok : r.OauthToken = EnvPrefix ++ N)
    (hunset : ext.environ N = none)
    (hch : r.Channels ≠ [])
    (hpre : processServices ext pre = (pre', none))
    (hpost : processServices ext post = (post', none))
    (hsv : hs.Notifications.Services = pre ++ service :: post) :
    (SubstituteFieldsWithEnv ext EnvPrefix r.fields).lookup "OauthToken" = none ∧
    ∃ (stored : SlackSettings) (svc : Slack),
      stored.OauthToken = EnvPrefix ++ N ∧
      GenerateSlackService (EnvPrefix ++ N) r.Channels = .ok svc ∧
      stored.Notifier = some ⟨[.slack svc]⟩ ∧
      processService ext service = .ok (.slack stored) ∧
      ProcessServiceSettings ext hs =
        ({ hs with Notifications :=
            { hs.Notifications with Services := pre' ++ .slack stored :: post' } }, none) := by
  have hfield : r.fields.lookup "OauthToken" = some (.str (EnvPrefix ++ N)) := by
    simp [SlackSettings.fields, List.lookup, htok]
  have hnone : (SubstituteFieldsWithEnv ext EnvPrefix r.fields).lookup "OauthToken" = none := by
    rw [lookup_SubstituteFieldsWithEnv, if_pos (mem_keys_of_lookup _ _ _ hfield)]
    exact resolveField_of_unset ext _ _ _ N hfield (by simp [Getenv, hunset])
  refine ⟨hnone, ?_⟩
  have hall := slack_setAll_eq (SubstituteFieldsWithEnv ext EnvPrefix r.fields)
    (keys_nodup_SubstituteFieldsWithEnv _ _ _) r
  have htok' : (r.setAll (SubstituteFieldsWithEnv ext EnvPrefix r.fields)).OauthToken =
      EnvPrefix ++ N := by
    rw [hall]; simp [hnone, htok]
  have hch' : (r.setAll (SubstituteFieldsWithEnv ext EnvPrefix r.fields)).Channels =
      r.Channels := by
    rw [hall]
  have hgen : GenerateSlackService (EnvPrefix ++ N) r.Channels =
      .ok ⟨EnvPrefix ++ N, [String.intercalate "," r.Channels]⟩ := by
    simp [GenerateSlackService, EnvPrefix_append_ne_empty, hch]
  have hone : processService ext service =
      .ok (.slack { r.setAll (SubstituteFieldsWithEnv ext EnvPrefix r.fields) with
        Notifier := some ⟨[.slack ⟨EnvPrefix ++ N, [String.intercalate "," r.Channels]⟩]⟩ }) := by
    rw [processService_of_slack ext service htype]
    simp only [processSlack, hdec, htok', hch', hgen]
    rfl
  refine ⟨_, _, ?_, hgen, rfl, hone, ?_⟩
  · exact htok'
  · unfold ProcessServiceSettings
    rw [hsv, processServices_append ext pre pre' _ hpre]
    simp only [processServices, hone, hpost]

/-- Witness of C5: the single entry `unsetTokenEntry`, whose token names the unset
variable `MISSING`. -/
theorem unresolved_secret_kept_witness :
    (SubstituteFieldsWithEnv (modelExt sampleEnviron (fun _ => none)) EnvPrefix
      ({ Name := "team", Type_ := "slack", Enabled := true, OauthToken := "env:MISSING",
         Channels := ["general"] } : SlackSettings).fields).lookup "OauthToken" = none ∧
    ∃ (stored : SlackSettings) (svc : Slack),
      stored.OauthToken = EnvPrefix ++ "MISSING" ∧
      GenerateSlackService (EnvPrefix ++ "MISSING") ["general"] = .ok svc ∧
      stored.Notifier = some ⟨[.slack svc]⟩ ∧
      processService (modelExt sampleEnviron (fun _ => none)) unsetTokenEntry =
        .ok (.slack stored) ∧
      ProcessServiceSettings (modelExt sampleEnviron (fun _ => none))
          { Notifications := { Services := [unsetTokenEntry] } } =
        ({ Notifications := { Services := [] ++ .slack stored :: [] } }, none) :=
  unresolved_secret_kept (modelExt sampleEnviron (fun _ => none))
    { Notifications := { Services := [unsetTokenEntry] } } unsetTokenEntry
    { Name := "team", Type_ := "slack", Enabled := true, OauthToken := "env:MISSING",
      Channels := ["general"] } "MISSING" [] [] [] []
    (by rfl) (by rfl) (by decide) (by decide) (by decide) (by rfl) (by rfl) (by rfl)

/-- Witness of C4 (amended): the token field `env:SLACK_TOKEN` with `SLACK_TOKEN` set to
`xoxb-1`. -/
theorem SubstituteFieldsWithEnv_binds_resolved_witness :
    (SubstituteFieldsWithEnv (modelExt sampleEnviron (fun _ => none)) EnvPrefix
      ({ OauthToken := "env:SLACK_TOKEN" } : SlackSettings).fields).lookup "OauthToken" =
        some "xoxb-1" ∧
    FieldByName (({ OauthToken := "env:SLACK_TOKEN" } : SlackSettings).setAll
      (SubstituteFieldsWithEnv (modelExt sampleEnviron (fun _ => none)) EnvPrefix
        ({ OauthToken := "env:SLACK_TOKEN" } : SlackSettings).fields)).fields "OauthToken" =
      .str "xoxb-1" :=
  have h := SubstituteFieldsWithEnv_binds_resolved (modelExt sampleEnviron (fun _ => none))
    EnvPrefix ({ OauthToken := "env:SLACK_TOKEN" } : SlackSettings).fields "OauthToken"
    "SLACK_TOKEN" "xoxb-1" (by decide) (by decide) (by decide)
  ⟨h.1, h.2.2.1 _ rfl rfl⟩

/-- Counterexample to C4 as stated: the variable `EMPTY` is set, to the empty string, the
token field is the prefix followed by `EMPTY`, and the map returned by
`SubstituteFieldsWithEnv` has no binding for the field; the field keeps the raw value. -/
theorem SubstituteFieldsWithEnv_set_to_empty_not_bound :
    sampleEnviron "EMPTY" = some "" ∧
    ({ OauthToken := "env:EMPTY" } : SlackSettings).fields.lookup "OauthToken" =
      some (.str (EnvPrefix ++ "EMPTY")) ∧
    (SubstituteFieldsWithEnv (modelExt sampleEnviron (fun _ => none)) EnvPrefix
      ({ OauthToken := "env:EMPTY" } : SlackSettings).fields).lookup "OauthToken" = none ∧
    (SubstituteFieldsWithEnv (modelExt sampleEnviron (fun _ => none)) EnvPrefix
      ({ OauthToken := "env:EMPTY" } : SlackSettings).fields).lookup "OauthToken" ≠
        some "" ∧
    (({ OauthToken := "env:EMPTY" } : SlackSettings).setAll
      (SubstituteFieldsWithEnv (modelExt sampleEnviron (fun _ => none)) EnvPrefix
        ({ OauthToken := "env:EMPTY" } : SlackSettings).fields)).OauthToken = "env:EMPTY" := by
  decide

theorem processSlack_ok (ext : Ext) (service stored : Service)
    (h : processSlack ext service = .ok stored) :
    ∃ (r : SlackSettings) (svc : Slack), ext.decodeSlack service = .ok r ∧
      stored = .slack { r.setAll (SubstituteFieldsWithEnv ext EnvPrefix r.fields) with
        Notifier := some ⟨[.slack svc]⟩ } := by
  unfold processSlack at h
  cases hd : ext.decodeSlack service with
  | error e => rw [hd] at h; exact Except.noConfusion h
  | ok r =>
    rw [hd] at h
    simp only [] at h
    cases hg : GenerateSlackService
        (r.setAll (SubstituteFieldsWithEnv ext EnvPrefix r.fields)).OauthToken
        (r.setAll (SubstituteFieldsWithEnv ext EnvPrefix r.fields)).Channels with
    | error e => rw [hg] at h; exact Except.noConfusion h
    | ok svc =>
      rw [hg] at h
      injection h with h
      exact ⟨r, svc, rfl, h.symm⟩

theorem processMail_ok (ext : Ext) (service stored : Service)
    (h : processMail ext service = .ok stored) :
    ∃ (r : MailSettings) (svc : Mail), ext.decodeMail service = .ok r ∧
      stored = .mail { r.setAll (SubstituteFieldsWithEnv ext EnvPrefix r.fields) with
        Notifier := some ⟨[.mail svc]⟩ } := by
  unfold processMail at h
  cases hd : ext.decodeMail service with
  | error e => rw [hd] at h; exact Except.noConfusion h
  | ok r =>
    rw [hd] at h
    simp only [] at h
    cases hg : ext.GenerateMailService
        (r.setAll (SubstituteFieldsWithEnv ext EnvPrefix r.fields)).SenderAddress
        (r.setAll (SubstituteFieldsWithEnv ext EnvPrefix r.fields)).SmtpHostAddr
        (r.setAll (SubstituteFieldsWithEnv ext EnvPrefix r.fields)).SmtpHostPort
        (r.setAll (SubstituteFieldsWithEnv ext EnvPrefix r.fields)).SmtpAuthUser
        (r.setAll (SubstituteFieldsWithEnv ext EnvPrefix r.fields)).SmtpAuthPassword
        (r.setAll (SubstituteFieldsWithEnv ext EnvPrefix r.fields)).ReceiverAddresses with
    | error e => rw [hg] at h; exact Except.noConfusion h
    | ok svc =>
      rw [hg] at h
      injection h with h
      exact ⟨r, svc, rfl, h.symm⟩

theorem processService_ok (ext : Ext) (service stored : Service)
    (h : processService ext service = .ok stored) :
    stored.isSettings = true ∧ stored.hasNotifier = true := by
  unfold processService at h
  cases ht : serviceType service with
  | error e => rw [ht] at h; exact Except.noConfusion h
  | ok t =>
    rw [ht] at h
    simp only [] at h
    by_cases h1 : t = "slack"
    · rw [if_pos h1] at h
      obtain ⟨r, svc, _, hst⟩ := processSlack_ok ext _ _ h
      subst hst
      exact ⟨rfl, rfl⟩
    · rw [if_neg h1] at h
      by_cases h2 : t = "mail"
      · rw [if_pos h2] at h
        obtain ⟨r, svc, _, hst⟩ := processMail_ok ext _ _ h
        subst hst
        exact ⟨rfl, rfl⟩
      · rw [if_neg h2] at h
        exact Except.noConfusion h

theorem processServices_ok (ext : Ext) (services stored : List Service)
    (h : processServices ext services = (stored, none)) :
    stored.length = services.length ∧
    ∀ s ∈ stored, s.isSettings = true ∧ s.hasNotifier = true := by
  induction services generalizing stored with
  | nil =>
    simp only [processServices, Prod.mk.injEq, and_true] at h
    subst h
    simp
  | cons x t ih =>
    cases hx : processService ext x with
    | error e => simp [processServices, hx] at h
    | ok x' =>
      simp only [processServices, hx, Prod.mk.injEq] at h
      obtain ⟨h1, h2⟩ := h
      have ht : processServices ext t = ((processServices ext t).1, none) := by rw [← h2]
      obtain ⟨hlen, hall⟩ := ih _ ht
      subst h1
      refine ⟨by simp [hlen], ?_⟩
      intro s hs
      rcases List.mem_cons.mp hs with hs | hs
      · subst hs
        exact processService_ok ext x _ hx
      · exact hall s hs

theorem processServices_error (ext : Ext) (services left : List Service) (e : Err)
    (h : processServices ext services = (left, some e)) :
    ∃ (pre pre' : List Service) (failing : Service) (rest : List Service),
      services = pre ++ failing :: rest ∧ left = pre' ++ failing :: rest ∧
      processServices ext pre = (pre', none) ∧ processService ext failing = .error e := by
  induction services generalizing left with
  | nil => simp [processServices] at h
  | cons x t ih =>
    cases hx : processService ext x with
    | error e' =>
      simp only [processServices, hx, Prod.mk.injEq, Option.some.injEq] at h
      obtain ⟨h1, h2⟩ := h
      subst h1 h2
      exact ⟨[], [], x, t, rfl, rfl, rfl, hx⟩
    | ok x' =>
      simp only [processServices, hx, Prod.mk.injEq] at h
      obtain ⟨h1, h2⟩ := h
      have ht : processServices ext t = ((processServices ext t).1, some e) := by rw [← h2]
      obtain ⟨pre, pre', failing, rest, hsv, hleft, hpre, hfail⟩ := ih _ ht
      refine ⟨x :: pre, x' :: pre', failing, rest, ?_, ?_, ?_, hfail⟩
      · rw [hsv]; rfl
      · rw [← h1, hleft]; rfl
      · simp only [processServices, hx, hpre]

theorem processService_unknown (ext : Ext) (m : RawMap) (t : String)
    (htype : m.lookup "type" = some (.str t)) (hslack : t ≠ "slack") (hmail : t ≠ "mail") :
    processService ext (.raw m) = .error .unknownType := by
  simp [processService, serviceType, htype, hslack, hmail]

theorem processServices_fails_at (ext : Ext) (pre post : List Service) (failing : Service)
    (e : Err) (hfail : processService ext failing = .error e) :
    (∃ e', (processServices ext (pre ++ failing :: post)).2 = some e') ∧
    ((∀ s ∈ pre, ∃ s', processService ext s = .ok s') →
      (processServices ext (pre ++ failing :: post)).2 = some e) := by
  induction pre with
  | nil =>
    have : processServices ext (failing :: post) = (failing :: post, some e) := by
      simp only [processServices, hfail]
    exact ⟨⟨e, by rw [List.nil_append, this]⟩, fun _ => by rw [List.nil_append, this]⟩
  | cons x t ih =>
    cases hx : processService ext x with
    | error e' =>
      have : processServices ext (x :: (t ++ failing :: post)) =
          (x :: (t ++ failing :: post), some e') := by
        simp only [processServices, hx]
      refine ⟨⟨e', by rw [List.cons_append, this]⟩, ?_⟩
      intro hall
      obtain ⟨s', hs'⟩ := hall x (List.mem_cons_self _ _)
      rw [hx] at hs'
      exact Except.noConfusion hs'
    | ok x' =>
      have : processServices ext (x :: (t ++ failing :: post)) =
          (x' :: (processServices ext (t ++ failing :: post)).1,
            (processServices ext (t ++ failing :: post)).2) := by
        simp only [processServices, hx]
      rw [List.cons_append, this]
      refine ⟨ih.1, ?_⟩
      intro hall
      exact ih.2 (fun s hs => hall s (List.mem_cons_of_mem _ hs))

theorem ProcessServiceSettings_snd (ext : Ext) (hs : HeartbeatsConfig) :
    (ProcessServiceSettings ext hs).2 = (processServices ext hs.Notifications.Services).2 :=
  rfl

theorem ProcessServiceSettings_services (ext : Ext) (hs : HeartbeatsConfig) :
    (ProcessServiceSettings ext hs).1.Notifications.Services =
      (processServices ext hs.Notifications.Services).1 :=
  rfl

/-! ## Unknown service types -/

/-- Counterexample to C2 as stated: a services list with an entry whose `type` is the
string `sms`, the entry being a `SlackSettings` value, on which `ProcessServiceSettings`
returns no error; and a reload that produces it. `loadedState` is what a load of
`validSlackEntry` leaves; the file then gives the same entry with type `sms`;
`viper.Unmarshal` writes that type into the `SlackSettings` value already in place,
and `ReadConfigFile` returns no error and keeps the entry, with a provider. -/
theorem typed_entry_of_unknown_type_accepted :
    (ProcessServiceSettings (modelExt sampleEnviron (fun _ => none))
      { Notifications := { Services :=
          [.slack { Name := "team", Type_ := "sms", Enabled := true,
                    OauthToken := "xoxb-1", Channels := ["general"] }] } }).2 = none ∧
    ProcessServiceSettings (modelExt sampleEnviron (fun _ => none))
        { priorState with Notifications :=
            { priorState.Notifications with Services := [validSlackEntry] } } =
      (loadedState, none) ∧
    ((reloadExt sampleEnviron retypedFiles).Unmarshal "config.yaml" "yaml"
        loadedState).1.Notifications.Services =
      [.slack { Name := "team", Type_ := "sms", Enabled := true,
                Notifier := some ⟨[.slack ⟨"xoxb-1", ["general"]⟩]⟩,
                OauthToken := "env:SLACK_TOKEN", Channels := ["general"] }] ∧
    (ReadConfigFile (reloadExt sampleEnviron retypedFiles) "./config.yaml" loadedState).2 =
      none ∧
    (ReadConfigFile (reloadExt sampleEnviron retypedFiles) "./config.yaml"
        loadedState).1.Notifications.Services =
      [.slack { Name := "team", Type_ := "sms", Enabled := true,
                Notifier := some ⟨[.slack ⟨"xoxb-1", ["general"]⟩]⟩,
                OauthToken := "xoxb-1", Channels := ["general"] }] := by
  decide

/-- C2 (amended): when the services list contains a map entry whose `type` is a string
other than `slack` and `mail`, `ProcessServiceSettings` returns an error; it is the
unknown notification service type error when every earlier entry is processed
successfully; and `ReadConfigFile`, once that list is what was unmarshalled into
`HeartbeatsServer`, returns an error as well. An entry that is already a `SlackSettings`
or `MailSettings` value has the service type of its Go type, whatever its `Type` field
holds. -/
theorem unknown_service_type_fails (ext : Ext) (hs : HeartbeatsConfig)
    (pre post : List Service) (m : RawMap) (t : String)
    (hsv : hs.Notifications.Services = pre ++ .raw m :: post)
    (htype : m.lookup "type" = some (.str t)) (hslack : t ≠ "slack") (hmail : t ≠ "mail") :
    (∃ e, (ProcessServiceSettings ext hs).2 = some e) ∧
    ((∀ s ∈ pre, ∃ s', processService ext s = .ok s') →
      (ProcessServiceSettings ext hs).2 = some .unknownType) ∧
    (∀ (configPath : String) (hs0 : HeartbeatsConfig),
      (ext.Unmarshal (configFileName configPath) (configFileType configPath) hs0).1 = hs →
      ∃ e, (ReadConfigFile ext configPath hs0).2 = some e) ∧
    (∀ s : SlackSettings, serviceType (.slack s) = .ok "slack" ∧
      processService ext (.slack s) = processSlack ext (.slack s)) ∧
    (∀ s : MailSettings, serviceType (.mail s) = .ok "mail" ∧
      processService ext (.mail s) = processMail ext (.mail s)) := by
  have hfail := processService_unknown ext m t htype hslack hmail
  have hloop := processServices_fails_at ext pre post (.raw m) .unknownType hfail
  have h1 : ∃ e, (ProcessServiceSettings ext hs).2 = some e := by
    rw [ProcessServiceSettings_snd, hsv]; exact hloop.1
  refine ⟨h1, ?_, ?_, fun s => ⟨rfl, by simp [processService, serviceType]⟩,
    fun s => ⟨rfl, by simp [processService, serviceType]⟩⟩
  · intro hall
    rw [ProcessServiceSettings_snd, hsv]
    exact hloop.2 hall
  · intro configPath hs0 hU
    unfold ReadConfigFile
    simp only []
    cases hR : ext.ReadInConfig (configFileName configPath) (configFileType configPath) with
    | some e => exact ⟨_, rfl⟩
    | none =>
      simp only []
      rcases hUe : ext.Unmarshal (configFileName configPath) (configFileType configPath) hs0
        with ⟨hs1, oe⟩
      rw [hUe] at hU
      simp only [] at hU
      subst hU
      cases oe with
      | some e => exact ⟨_, rfl⟩
      | none =>
        simp only []
        obtain ⟨e, he⟩ := h1
        rcases hP : ProcessServiceSettings ext hs1 with ⟨hs2, oe2⟩
        rw [hP] at he
        simp only [] at he
        subst he
        exact ⟨_, rfl⟩

/-- Witness of C2 (amended): a valid Slack entry followed by a map entry of type `sms`. -/
theorem unknown_service_type_fails_witness :
    (ProcessServiceSettings (modelExt sampleEnviron reloadFiles)
      { Notifications := { Services := [validSlackEntry, invalidTypeEntry] } }).2 =
      some .unknownType ∧
    ∃ e, (ReadConfigFile (modelExt sampleEnviron reloadFiles) "./config.yaml" {}).2 = some e :=
  have h := unknown_service_type_fails (modelExt sampleEnviron reloadFiles)
    { Notifications := { Defaults := ⟨"Heartbeat", "Heartbeat is missing"⟩,
                         Services := [validSlackEntry, invalidTypeEntry] } }
    [validSlackEntry] []
    [("name", .str "pager"), ("type", .str "sms"), ("enabled", .bool true)] "sms"
    rfl (by decide) (by decide) (by decide)
  ⟨h.2.1 (fun s hs => by
      rw [List.mem_singleton] at hs
      subst hs
      exact ⟨_, rfl⟩),
   h.2.2.1 "./config.yaml" {} (by rfl)⟩

/-! ## A failed load -/

/-- Counterexample to C3 as stated: the reload of a file with a valid Slack entry followed
by an entry of an invalid type returns an error, and the services of `HeartbeatsServer`
are no longer the prior ones; the same holds for `ProcessServiceSettings` alone, which
has replaced the first entry when it fails at the second. -/
theorem failed_reload_changes_services :
    (ReadConfigFile (modelExt sampleEnviron reloadFiles) "./config.yaml" priorState).2 =
      some (.processing .unknownType) ∧
    (ReadConfigFile (modelExt sampleEnviron reloadFiles) "./config.yaml"
        priorState).1.Notifications.Services =
      [.slack { Name := "team", Type_ := "slack", Enabled := true,
                Notifier := some ⟨[.slack ⟨"xoxb-1", ["general"]⟩]⟩,
                OauthToken := "xoxb-1", Channels := ["general"] },
       invalidTypeEntry] ∧
    (ReadConfigFile (modelExt sampleEnviron reloadFiles) "./config.yaml"
        priorState).1.Notifications.Services ≠ priorState.Notifications.Services ∧
    (ProcessServiceSettings (modelExt sampleEnviron reloadFiles)
      { priorState with Notifications :=
          { priorState.Notifications with
            Services := [validSlackEntry, invalidTypeEntry] } }).2 = some .unknownType ∧
    (ProcessServiceSettings (modelExt sampleEnviron reloadFiles)
      { priorState with Notifications :=
          { priorState.Notifications with
            Services := [validSlackEntry, invalidTypeEntry] } }).1.Notifications.Services ≠
      [validSlackEntry, invalidTypeEntry] := by
  decide

/-- C3 (amended): a failed load is not rolled back. When `ProcessServiceSettings` returns
an error, the heartbeats and the defaults are the ones it was called with, the entries
before the failing one are replaced by the settings built for them, and the failing
entry and the later ones are left as they were. After `ReadConfigFile`, whatever it
returns, `HeartbeatsServer` is the prior value only when `viper.ReadInConfig` fails;
otherwise it is what `viper.Unmarshal` wrote, passed through `ProcessServiceSettings`
when unmarshalling succeeded. -/
theorem failed_load_not_rolled_back (ext : Ext) (hs hs' : HeartbeatsConfig) (e : Err)
    (h : ProcessServiceSettings ext hs = (hs', some e)) :
    (hs'.Heartbeats = hs.Heartbeats ∧
     hs'.Notifications.Defaults = hs.Notifications.Defaults ∧
     ∃ (pre pre' : List Service) (failing : Service) (rest : List Service),
       hs.Notifications.Services = pre ++ failing :: rest ∧
       hs'.Notifications.Services = pre' ++ failing :: rest ∧
       pre'.length = pre.length ∧
       (∀ s ∈ pre', (∃ r, s = .slack r) ∨ (∃ r, s = .mail r)) ∧
       processServices ext pre = (pre', none) ∧
       processService ext failing = .error e) ∧
    (∀ (configPath : String) (hs0 : HeartbeatsConfig),
      (ReadConfigFile ext configPath hs0).1 =
        match ext.ReadInConfig (configFileName configPath) (configFileType configPath) with
        | some _ => hs0
        | none =>
          match (ext.Unmarshal (configFileName configPath)
              (configFileType configPath) hs0).2 with
          | some _ =>
            (ext.Unmarshal (configFileName configPath) (configFileType configPath) hs0).1
          | none =>
            (ProcessServiceSettings ext (ext.Unmarshal (configFileName configPath)
              (configFileType configPath) hs0).1).1) := by
  constructor
  · have hsnd : (processServices ext hs.Notifications.Services).2 = some e := by
      rw [← ProcessServiceSettings_snd, h]
    have hfst : hs'.Notifications.Services =
        (processServices ext hs.Notifications.Services).1 := by
      rw [← ProcessServiceSettings_services, h]
    have hpair : processServices ext hs.Notifications.Services =
        (hs'.Notifications.Services, some e) := by
      rw [hfst, ← hsnd]
    obtain ⟨pre, pre', failing, rest, hsv, hleft, hpre, hfail⟩ :=
      processServices_error ext _ _ e hpair
    have hhb : hs'.Heartbeats = hs.Heartbeats := by
      have := congrArg (fun p => p.1.Heartbeats) h
      exact this.symm
    have hdef : hs'.Notifications.Defaults = hs.Notifications.Defaults := by
      have := congrArg (fun p => p.1.Notifications.Defaults) h
      exact this.symm
    obtain ⟨hlen, hall⟩ := processServices_ok ext pre pre' hpre
    refine ⟨hhb, hdef, pre, pre', failing, rest, hsv, hleft, hlen, ?_, hpre, hfail⟩
    intro s hs
    have := (hall s hs).1
    cases s with
    | slack r => exact Or.inl ⟨r, rfl⟩
    | mail r => exact Or.inr ⟨r, rfl⟩
    | raw m => exact absurd this (by simp [Service.isSettings])
    | other => exact absurd this (by simp [Service.isSettings])
  · intro configPath hs0
    unfold ReadConfigFile
    simp only []
    cases ext.ReadInConfig (configFileName configPath) (configFileType configPath) with
    | some e => rfl
    | none =>
      simp only []
      rcases ext.Unmarshal (configFileName configPath) (configFileType configPath) hs0
        with ⟨hs1, oe⟩
      cases oe with
      | some e => rfl
      | none =>
        simp only []
        rcases hP : ProcessServiceSettings ext hs1 with ⟨hs2, oe2⟩
        cases oe2 <;> rfl

/-- Witness of C3 (amended): `ProcessServiceSettings` on the prior state with a valid
Slack entry followed by an entry of type `sms`. -/
theorem failed_load_not_rolled_back_witness :
    ∃ (pre pre' : List Service) (failing : Service) (rest : List Service),
      [validSlackEntry, invalidTypeEntry] = pre ++ failing :: rest ∧
      (ProcessServiceSettings (modelExt sampleEnviron reloadFiles)
        { priorState with Notifications :=
            { priorState.Notifications with
              Services := [validSlackEntry, invalidTypeEntry] } }).1.Notifications.Services =
        pre' ++ failing :: rest ∧
      pre'.length = pre.length ∧
      processService (modelExt sampleEnviron reloadFiles) failing = .error .unknownType :=
  have h := failed_load_not_rolled_back (modelExt sampleEnviron reloadFiles)
    { priorState with Notifications :=
        { priorState.Notifications with Services := [validSlackEntry, invalidTypeEntry] } }
    (ProcessServiceSettings (modelExt sampleEnviron reloadFiles)
      { priorState with Notifications :=
          { priorState.Notifications with
            Services := [validSlackEntry, invalidTypeEntry] } }).1
    .unknownType (by rfl)
  match h.1.2.2 with
  | ⟨pre, pre', failing, rest, a, b, c, _, _, f⟩ => ⟨pre, pre', failing, rest, a, b, c, f⟩

/-! ## Providers and the `enabled` flag -/

theorem processSlack_empty_token (ext : Ext) (service : Service) (r : SlackSettings)
    (hdec : ext.decodeSlack service = .ok r) (htok : r.OauthToken = "") :
    processSlack ext service = .error (.slackService "Token is empty") := by
  have hfield : r.fields.lookup "OauthToken" = some (.str "") := by
    simp [SlackSettings.fields, List.lookup, htok]
  have hres : resolveField ext EnvPrefix r.fields "OauthToken" = none := by
    unfold resolveField
    rw [FieldByName_of_lookup _ _ _ hfield]
    have : HasPrefix (reflectString (.str "")) EnvPrefix = false := by decide
    rw [this]
    simp
  have hnone : (SubstituteFieldsWithEnv ext EnvPrefix r.fields).lookup "OauthToken" = none := by
    rw [lookup_SubstituteFieldsWithEnv, hres]
    simp
  have hall := slack_setAll_eq (SubstituteFieldsWithEnv ext EnvPrefix r.fields)
    (keys_nodup_SubstituteFieldsWithEnv _ _ _) r
  have htok' : (r.setAll (SubstituteFieldsWithEnv ext EnvPrefix r.fields)).OauthToken = "" := by
    rw [hall]; simp [hnone, htok]
  simp only [processSlack, hdec, htok']
  simp [GenerateSlackService]

/-- Counterexample to C7 as stated: a disabled Slack entry without credentials fails the
load with the Slack generation error, and a disabled Slack entry with credentials gets
a provider like an enabled one. -/
theorem disabled_entry_is_built :
    ProcessServiceSettings (modelExt sampleEnviron (fun _ => none))
        { Notifications := { Services := [disabledSlackEntry] } } =
      ({ Notifications := { Services := [disabledSlackEntry] } },
        some (.slackService "Token is empty")) ∧
    ProcessServiceSettings (modelExt sampleEnviron (fun _ => none))
        { Notifications := { Services := [disabledCompleteEntry] } } =
      ({ Notifications := { Services :=
          [.slack { Name := "quiet", Type_ := "slack", Enabled := false,
                    Notifier := some ⟨[.slack ⟨"xoxb-2", ["ops"]⟩]⟩,
                    OauthToken := "xoxb-2", Channels := ["ops"] }] } }, none) := by
  decide

/-- C7 (amended): providers are built for every entry, whatever its `enabled` flag. When
`ProcessServiceSettings` returns no error, the list keeps its length and every entry
holds settings with a notifier attached; the settings stored for a Slack entry carry
the decoded `enabled` flag, true or false; and a Slack entry whose decoded token is
empty fails the load with the Slack generation error, disabled or not. -/
theorem providers_built_for_every_entry (ext : Ext) (hs hs' : HeartbeatsConfig)
    (h : ProcessServiceSettings ext hs = (hs', none)) :
    hs'.Notifications.Services.length = hs.Notifications.Services.length ∧
    (∀ s ∈ hs'.Notifications.Services, s.hasNotifier = true) ∧
    (∀ (service stored : Service) (r : SlackSettings),
      serviceType service = .ok "slack" → ext.decodeSlack service = .ok r →
      processService ext service = .ok stored →
      stored.enabled = some r.Enabled ∧ stored.hasNotifier = true) ∧
    (∀ (service : Service) (r : SlackSettings),
      serviceType service = .ok "slack" → ext.decodeSlack service = .ok r →
      r.OauthToken = "" →
      processService ext service = .error (.slackService "Token is empty")) := by
  have hsnd : (processServices ext hs.Notifications.Services).2 = none := by
    rw [← ProcessServiceSettings_snd, h]
  have hfst : hs'.Notifications.Services =
      (processServices ext hs.Notifications.Services).1 := by
    rw [← ProcessServiceSettings_services, h]
  have hpair : processServices ext hs.Notifications.Services =
      (hs'.Notifications.Services, none) := by
    rw [hfst, ← hsnd]
  obtain ⟨hlen, hall⟩ := processServices_ok ext _ _ hpair
  refine ⟨hlen, fun s hs => (hall s hs).2, ?_, ?_⟩
  · intro service stored r htype hdec hok
    rw [processService_of_slack ext service htype] at hok
    obtain ⟨r', svc, hdec', hst⟩ := processSlack_ok ext _ _ hok
    rw [hdec] at hdec'
    injection hdec' with hr
    subst hr hst
    refine ⟨?_, rfl⟩
    rw [slack_setAll_eq _ (keys_nodup_SubstituteFieldsWithEnv _ _ _)]
    rfl
  · intro service r htype hdec htok
    rw [processService_of_slack ext service htype]
    exact processSlack_empty_token ext service r hdec htok

/-- Witness of C7 (amended): the single disabled entry `disabledCompleteEntry`. -/
theorem providers_built_for_every_entry_witness :
    (ProcessServiceSettings (modelExt sampleEnviron (fun _ => none))
        { Notifications := { Services := [disabledCompleteEntry] } }).1.Notifications.Services.length
      = [disabledCompleteEntry].length ∧
    ∀ s ∈ (ProcessServiceSettings (modelExt sampleEnviron (fun _ => none))
        { Notifications := { Services := [disabledCompleteEntry] } }).1.Notifications.Services,
      s.hasNotifier = true :=
  have h := providers_built_for_every_entry (modelExt sampleEnviron (fun _ => none))
    { Notifications := { Services := [disabledCompleteEntry] } }
    (ProcessServiceSettings (modelExt sampleEnviron (fun _ => none))
      { Notifications := { Services := [disabledCompleteEntry] } }).1 (by rfl)
  ⟨h.1, h.2.1⟩

/-! ## The services after a successful pass -/

theorem checkServices_ne_invalid (ext : Ext) (heartbeat : Heartbeat) (services : List Service)
    (h : ∀ s ∈ services, s.isSettings = true) :
    checkServices ext heartbeat services ≠ some .invalidServiceType := by
  induction services with
  | nil => simp [checkServices]
  | cons x t ih =>
    have hx := h x (List.mem_cons_self _ _)
    have ht := ih (fun s hs => h s (List.mem_cons_of_mem _ hs))
    cases x with
    | raw m => simp [Service.isSettings] at hx
    | other => simp [Service.isSettings] at hx
    | slack r =>
      simp only [checkServices]
      cases ext.Substitute r.Name r.Subject heartbeat with
      | error e => simp
      | ok _ =>
        simp only []
        cases ext.Substitute r.Name r.Message heartbeat with
        | error e => simp
        | ok _ => exact ht
    | mail r =>
      simp only [checkServices]
      cases ext.Substitute r.Name r.Subject heartbeat with
      | error e => simp
      | ok _ =>
        simp only []
        cases ext.Substitute r.Name r.Message heartbeat with
        | error e => simp
        | ok _ => exact ht

/-- C9: when `ProcessServiceSettings` returns no error, every element of
`HeartbeatsServer.Notifications.Services` is a `SlackSettings` or a `MailSettings` value,
the list has the length it had, and `CheckSendDetails` run on the result does not return
its invalid service type error. -/
theorem services_typed_after_success (ext : Ext) (hs hs' : HeartbeatsConfig)
    (h : ProcessServiceSettings ext hs = (hs', none)) :
    (∀ s ∈ hs'.Notifications.Services, (∃ r, s = .slack r) ∨ (∃ r, s = .mail r)) ∧
    hs'.Notifications.Services.length = hs.Notifications.Services.length ∧
    CheckSendDetails ext hs' ≠ some .invalidServiceType := by
  have hsnd : (processServices ext hs.Notifications.Services).2 = none := by
    rw [← ProcessServiceSettings_snd, h]
  have hfst : hs'.Notifications.Services =
      (processServices ext hs.Notifications.Services).1 := by
    rw [← ProcessServiceSettings_services, h]
  have hpair : processServices ext hs.Notifications.Services =
      (hs'.Notifications.Services, none) := by
    rw [hfst, ← hsnd]
  obtain ⟨hlen, hall⟩ := processServices_ok ext _ _ hpair
  refine ⟨?_, hlen, ?_⟩
  · intro s hs
    have := (hall s hs).1
    cases s with
    | slack r => exact Or.inl ⟨r, rfl⟩
    | mail r => exact Or.inr ⟨r, rfl⟩
    | raw m => exact absurd this (by simp [Service.isSettings])
    | other => exact absurd this (by simp [Service.isSettings])
  · unfold CheckSendDetails
    simp only []
    by_cases hsub : hs'.Notifications.Defaults.Subject = ""
    · simp [hsub]
    · rw [if_neg hsub]
      cases ext.Substitute "default" hs'.Notifications.Defaults.Subject {} with
      | error e => simp
      | ok _ =>
        simp only []
        cases ext.Substitute "default" hs'.Notifications.Defaults.Message {} with
        | error e => simp
        | ok _ =>
          simp only []
          by_cases hmsg : hs'.Notifications.Defaults.Message = ""
          · simp [hmsg]
          · rw [if_neg hmsg]
            exact checkServices_ne_invalid ext _ _ (fun s hs => (hall s hs).1)

/-- Witness of C9: a Slack entry from the file and a `MailSettings` value left by an
earlier pass. -/
theorem services_typed_after_success_witness :
    (∀ s ∈ (ProcessServiceSettings (modelExt sampleEnviron (fun _ => none))
        { Notifications := { Defaults := ⟨"Heartbeat", "Heartbeat is missing"⟩,
                             Services := [validSlackEntry, .mail
            { Name := "ops", Type_ := "mail", Enabled := true, SenderAddress := "a@x.org",
              SmtpHostAddr := "smtp.x.org", SmtpHostPort := 587, SmtpAuthUser := "a",
              SmtpAuthPassword := "pw", ReceiverAddresses := ["b@x.org"] }] } }).1.Notifications.Services,
      (∃ r, s = .slack r) ∨ (∃ r, s = .mail r)) ∧
    CheckSendDetails (modelExt sampleEnviron (fun _ => none))
      (ProcessServiceSettings (modelExt sampleEnviron (fun _ => none))
        { Notifications := { Defaults := ⟨"Heartbeat", "Heartbeat is missing"⟩,
                             Services := [validSlackEntry, .mail
            { Name := "ops", Type_ := "mail", Enabled := true, SenderAddress := "a@x.org",
              SmtpHostAddr := "smtp.x.org", SmtpHostPort := 587, SmtpAuthUser := "a",
              SmtpAuthPassword := "pw", ReceiverAddresses := ["b@x.org"] }] } }).1 ≠
      some .invalidServiceType :=
  have h := services_typed_after_success (modelExt sampleEnviron (fun _ => none))
    { Notifications := { Defaults := ⟨"Heartbeat", "Heartbeat is missing"⟩,
                         Services := [validSlackEntry, .mail
        { Name := "ops", Type_ := "mail", Enabled := true, SenderAddress := "a@x.org",
          SmtpHostAddr := "smtp.x.org", SmtpHostPort := 587, SmtpAuthUser := "a",
          SmtpAuthPassword := "pw", ReceiverAddresses := ["b@x.org"] }] } }
    (ProcessServiceSettings (modelExt sampleEnviron (fun _ => none))
      { Notifications := { Defaults := ⟨"Heartbeat", "Heartbeat is missing"⟩,
                           Services := [validSlackEntry, .mail
          { Name := "ops", Type_ := "mail", Enabled := true, SenderAddress := "a@x.org",
            SmtpHostAddr := "smtp.x.org", SmtpHostPort := 587, SmtpAuthUser := "a",
            SmtpAuthPassword := "pw", ReceiverAddresses := ["b@x.org"] }] } }).1
    (by rfl)
  ⟨h.1, h.2.2⟩

end Heartbeats
